import Mathlib

/-!
Shallow embedding of the firestonestorebackend dual-currency point-of-sale
core: the transaction controller (`createTransaction`,
`createReturnTransaction`, `getSalesReport`), the credit controller
(`createCredit`, `payCredit`) and the currency-rate controller
(`updateRate`).

Modelling conventions:
* A JS number is a rational (`ℚ`); a number-valued field that may be
  `undefined`/missing is `Option ℚ` (`none` behaves like `undefined`:
  comparisons with it are false, it is falsy, arithmetic on it poisons).
* A MongoDB collection is an association list `List (Nat × doc)` keyed by
  `_id`; `_id` is the primary key, so `findOne {_id, ...}` is a key lookup
  followed by the remaining filter conditions, and `findByIdAndUpdate`
  rewrites the entry at the key.
* Controller handlers become pure functions from a request plus the current
  collection state to the new state paired with `Except` of an error code.
-/

namespace Firestone

/-- Currency enum of the transaction schema (`LRD`, `USD`, `BOTH`). -/
inductive Currency
  | LRD
  | USD
  | BOTH
deriving DecidableEq, Repr

/-- Transaction `type` enum (`sale`, `restock`, `return`). -/
inductive TxType
  | sale
  | restock
  | ret
deriving DecidableEq, Repr

/-- Credit `status` enum (`pending`, `paid`). -/
inductive CreditStatus
  | pending
  | paid
deriving DecidableEq, Repr

/-- Error responses the controllers produce, one constructor per distinct
`res.status(...).json({error: ...})` site that the embedded handlers reach. -/
inductive Err
  | storeRequired
  | customerNameRequired
  | productNotFound (pid : Nat)
  | insufficientQuantity (item : String)
  | amountLRDInsufficient
  | amountUSDInsufficient
  | bothAmountsRequired
  | combinedInsufficient
  | invalidQuantity (item : String)
  | emptyProducts
  | pendingCreditNotFound
  | invalidRate
deriving DecidableEq, Repr

/-- HTTP status code each error is reported with in the source: 404 for the
not-found errors, 400 for the validation errors. -/
def Err.httpStatus : Err → Nat
  | .productNotFound _ => 404
  | .pendingCreditNotFound => 404
  | _ => 400

/-- JS truthiness of a possibly-undefined number (`undefined` and `0` are
falsy). -/
def jsTruthy : Option ℚ → Bool
  | none => false
  | some v => decide (v ≠ 0)

/-- JS `x || 0` on a possibly-undefined number; also what the mongoose
`default: 0` produces for an omitted field. -/
def jsOrZero : Option ℚ → ℚ
  | none => 0
  | some v => v

/-- JS comparison `a < t` where `t` may be `undefined` (the comparison is
then false, as with `NaN`). -/
def jsLtU (a : ℚ) : Option ℚ → Bool
  | none => false
  | some t => decide (a < t)

/-- The stock check `product.pieces < item.quantity`, where `pieces` may be
missing from the document (the comparison is then false). -/
def piecesLt (pc : Option ℚ) (q : ℚ) : Bool :=
  match pc with
  | none => false
  | some v => decide (v < q)

/-- JS multiplication `p * q` where `p` may be undefined (then the result is
`NaN`, modelled as `none`). -/
def jsMul (p : Option ℚ) (q : ℚ) : Option ℚ :=
  p.map (· * q)

/-- JS addition where either side may be `NaN`/undefined. -/
def jsAdd : Option ℚ → Option ℚ → Option ℚ
  | some a, some b => some (a + b)
  | _, _ => none

/-- JS `String.prototype.trim`: strip whitespace from both ends. -/
def jsTrim (s : String) : String :=
  ⟨((s.data.dropWhile Char.isWhitespace).reverse.dropWhile Char.isWhitespace).reverse⟩

/-- JS `s || d` for a possibly-undefined string (empty string is falsy). -/
def jsOrStr (s : Option String) (d : String) : String :=
  match s with
  | none => d
  | some v => if v = "" then d else v

/-- Key lookup in a collection: the document with the given `_id`, if any. -/
def lookupById {α : Type} : List (Nat × α) → Nat → Option α
  | [], _ => none
  | (j, a) :: t, i => if j = i then some a else lookupById t i

/-- Embeds `findByIdAndUpdate`: rewrite the document at the given `_id` (a no-op
when the id is absent). -/
def updateById {α : Type} : List (Nat × α) → Nat → (α → α) → List (Nat × α)
  | [], _, _ => []
  | (j, a) :: t, i, f => if j = i then (j, f a) :: t else (j, a) :: updateById t i f

/-- Product document (`models/Product.js` as mirrored by the upload script's
schema): number fields are not `required` and have no default, so each may be
missing. -/
structure Product where
  store : String
  item : String
  pieces : Option ℚ
  priceUSD : Option ℚ
  priceLRD : Option ℚ
  totalLRD : Option ℚ
deriving DecidableEq, Repr

/-- The products collection. -/
abbrev Inv := List (Nat × Product)

/-- Embeds `Product.findOne({ _id: pid, store })`. -/
def findOneProduct (inv : Inv) (pid : Nat) (store : String) : Option Product :=
  match lookupById inv pid with
  | some p => if p.store = store then some p else none
  | none => none

/-- A request line item (`{ product, quantity }`). -/
structure LineItem where
  product : Nat
  quantity : ℚ
deriving DecidableEq, Repr

/-- A stored line item after enhancement: the product name and both unit
prices are snapshotted from the product document. -/
structure EnhancedItem where
  product : Nat
  productName : String
  quantity : ℚ
  priceAtSaleUSD : Option ℚ
  priceAtSaleLRD : Option ℚ
deriving DecidableEq, Repr

/-- Embeds `$inc: { pieces: -quantity }` (a MongoDB `$inc` on a missing field
creates it holding the increment, i.e. treats it as `0`). -/
def decPieces (q : ℚ) (p : Product) : Product :=
  { p with pieces := some (jsOrZero p.pieces - q) }

/-- Embeds `$inc: { pieces: quantity }` for the return flow. -/
def incPieces (q : ℚ) (p : Product) : Product :=
  { p with pieces := some (jsOrZero p.pieces + q) }

/-- The sale/credit per-item loop of `createTransaction` and `createCredit`:
look each product up by `(id, store)` (404 if absent), check
`product.pieces < item.quantity` (400 if so), decrement `pieces`, and push
the enhanced line item. Returns the inventory as left at exit together with
the outcome; a failure returns the inventory reached so far (no rollback is
performed in the source). -/
def processItems (store : String) :
    List LineItem → Inv → List EnhancedItem → Inv × Except Err (List EnhancedItem)
  | [], inv, acc => (inv, .ok acc)
  | item :: rest, inv, acc =>
    match findOneProduct inv item.product store with
    | none => (inv, .error (.productNotFound item.product))
    | some p =>
      if piecesLt p.pieces item.quantity then
        (inv, .error (.insufficientQuantity p.item))
      else
        processItems store rest (updateById inv item.product (decPieces item.quantity))
          (acc ++ [{ product := item.product, productName := p.item,
                     quantity := item.quantity,
                     priceAtSaleUSD := p.priceUSD, priceAtSaleLRD := p.priceLRD }])

/-- Embeds `const EXCHANGE_RATE = currencyRate || 197`: the caller-supplied rate
when present and nonzero, the fixed fallback `197` otherwise. -/
def effRate (r : Option ℚ) : ℚ :=
  match r with
  | none => 197
  | some v => if v = 0 then 197 else v

/-- The payment-sufficiency validation shared verbatim by `createTransaction`
and `payCredit`. Returns `none` when the payment passes, or the error
produced. `none` in an amount argument models a value whose
`typeof ... !== 'number'`; the totals may be undefined (then the JS `<`
comparison is false and the check passes). -/
def validatePayment (currency : Currency) (aLRD aUSD : Option ℚ)
    (tLRD tUSD : Option ℚ) (rate : Option ℚ) : Option Err :=
  match currency with
  | .LRD =>
    match aLRD with
    | none => some .amountLRDInsufficient
    | some a => if jsLtU a tLRD then some .amountLRDInsufficient else none
  | .USD =>
    match aUSD with
    | none => some .amountUSDInsufficient
    | some a => if jsLtU a tUSD then some .amountUSDInsufficient else none
  | .BOTH =>
    match aLRD, aUSD with
    | some a, some u =>
      if jsLtU (a + u * effRate rate) tLRD then some .combinedInsufficient else none
    | _, _ => some .bothAmountsRequired

/-- Request body of `createTransaction`. -/
structure SaleReq where
  productsSold : List LineItem
  currency : Currency
  store : String
  amountReceivedLRD : Option ℚ
  amountReceivedUSD : Option ℚ
  change : Option ℚ
  changeCurrency : Option Currency
  totalLRD : Option ℚ
  totalUSD : Option ℚ
  currencyRate : Option ℚ
deriving DecidableEq, Repr

/-- A persisted Transaction document. Totals are `Option ℚ` because the
return flow can store a `NaN` total when a product price is missing; the
amount fields go through the schema `default: 0` so they are plain numbers. -/
structure Transaction where
  type : TxType
  store : String
  currency : Currency
  productsSold : List EnhancedItem
  amountReceivedLRD : ℚ
  amountReceivedUSD : ℚ
  change : ℚ
  changeCurrency : Option Currency
  totalLRD : Option ℚ
  totalUSD : Option ℚ
  returnReason : Option String
  originalTransaction : Option Nat
deriving DecidableEq, Repr

/-- Embeds `createTransaction` (the sale endpoint): store check, the per-item
inventory loop, the payment-sufficiency validation, then the Transaction is
built and saved. On any failure the inventory is returned exactly as the
loop left it. -/
def createTransaction (req : SaleReq) (inv : Inv) : Inv × Except Err Transaction :=
  if req.store = "" then (inv, .error .storeRequired)
  else
    match processItems req.store req.productsSold inv [] with
    | (inv', .error e) => (inv', .error e)
    | (inv', .ok enhanced) =>
      match validatePayment req.currency req.amountReceivedLRD req.amountReceivedUSD
          req.totalLRD req.totalUSD req.currencyRate with
      | some e => (inv', .error e)
      | none =>
        (inv', .ok
          { type := .sale
            store := req.store
            currency := req.currency
            productsSold := enhanced
            amountReceivedLRD :=
              if req.currency = .USD then 0 else jsOrZero req.amountReceivedLRD
            amountReceivedUSD :=
              if req.currency = .LRD then 0 else jsOrZero req.amountReceivedUSD
            change := jsOrZero req.change
            changeCurrency :=
              if req.currency = .BOTH then req.changeCurrency else some req.currency
            totalLRD := some (jsOrZero req.totalLRD)
            totalUSD := some (jsOrZero req.totalUSD)
            returnReason := none
            originalTransaction := none })

/-- Request body of `createCredit`. -/
structure CreditReq where
  productsSold : List LineItem
  store : String
  customerName : String
  totalLRD : Option ℚ
  totalUSD : Option ℚ
  currencyRate : Option ℚ
  preferredCurrency : Option Currency
deriving DecidableEq, Repr

/-- A persisted Credit document. The stored totals went through
`totalLRD || 0` so they are plain numbers. -/
structure Credit where
  productsSold : List EnhancedItem
  store : String
  customerName : String
  totalLRD : ℚ
  totalUSD : ℚ
  status : CreditStatus
  preferredCurrency : Currency
  paidAt : Option Nat
  paymentTransaction : Option Nat
deriving DecidableEq, Repr

/-- The credits collection. -/
abbrev Credits := List (Nat × Credit)

/-- Embeds `createCredit`: store and customer-name checks, then the same per-item
inventory loop as `createTransaction`, then the Credit is built with the
caller-supplied totals (`totalLRD || 0`, `totalUSD || 0`) and saved in
`pending` status. `newId` stands for the `_id` the store assigns to the new
document. -/
def createCredit (req : CreditReq) (newId : Nat) (inv : Inv) (credits : Credits) :
    Inv × Credits × Except Err Credit :=
  if req.store = "" then (inv, credits, .error .storeRequired)
  else if jsTrim req.customerName = "" then (inv, credits, .error .customerNameRequired)
  else
    match processItems req.store req.productsSold inv [] with
    | (inv', .error e) => (inv', credits, .error e)
    | (inv', .ok enhanced) =>
      let c : Credit :=
        { productsSold := enhanced
          store := req.store
          customerName := req.customerName
          totalLRD := jsOrZero req.totalLRD
          totalUSD := jsOrZero req.totalUSD
          status := .pending
          preferredCurrency := req.preferredCurrency.getD .LRD
          paidAt := none
          paymentTransaction := none }
      (inv', credits ++ [(newId, c)], .ok c)

/-- Request body of `payCredit`. -/
structure PayReq where
  currency : Currency
  store : String
  amountReceivedLRD : Option ℚ
  amountReceivedUSD : Option ℚ
  change : Option ℚ
  changeCurrency : Option Currency
  currencyRate : Option ℚ
deriving DecidableEq, Repr

/-- Embeds `payCredit`: find the credit by `(_id, store, status: pending)`
(404 if absent), run the payment-sufficiency validation against the credit's
stored totals, create a `sale` Transaction carrying the credit's line items
and totals, and flip the credit to `paid`, stamping `paidAt` and linking
`paymentTransaction`. `now` stands for `new Date()` and `txId` for the `_id`
of the new Transaction. -/
def payCredit (id : Nat) (req : PayReq) (now : Nat) (txId : Nat) (credits : Credits) :
    Credits × Except Err (Credit × Transaction) :=
  if req.store = "" then (credits, .error .storeRequired)
  else
    match lookupById credits id with
    | none => (credits, .error .pendingCreditNotFound)
    | some c =>
      if c.store = req.store ∧ c.status = .pending then
        match validatePayment req.currency req.amountReceivedLRD req.amountReceivedUSD
            (some c.totalLRD) (some c.totalUSD) req.currencyRate with
        | some e => (credits, .error e)
        | none =>
          let tx : Transaction :=
            { type := .sale
              store := req.store
              currency := req.currency
              productsSold := c.productsSold
              amountReceivedLRD :=
                if req.currency = .USD then 0 else jsOrZero req.amountReceivedLRD
              amountReceivedUSD :=
                if req.currency = .LRD then 0 else jsOrZero req.amountReceivedUSD
              change := jsOrZero req.change
              changeCurrency :=
                if req.currency = .BOTH then req.changeCurrency else some req.currency
              totalLRD := some c.totalLRD
              totalUSD := some c.totalUSD
              returnReason := none
              originalTransaction := none }
          let c' : Credit :=
            { c with status := .paid, paidAt := some now, paymentTransaction := some txId }
          (updateById credits id (fun _ => c'), .ok (c', tx))
      else (credits, .error .pendingCreditNotFound)

/-- Request body of `createReturnTransaction`. -/
structure ReturnReq where
  productsReturned : List LineItem
  currency : Currency
  store : String
  returnReason : Option String
  originalTransactionId : Option Nat
deriving DecidableEq, Repr

/-- The per-item loop of `createReturnTransaction`: look the product up by
`(id, store)` (404 if absent), reject `!item.quantity || item.quantity <= 0`
(400; `!quantity` means `quantity = 0`, which `≤ 0` subsumes), increment
`pieces`, accumulate `priceLRD * quantity` / `priceUSD * quantity` from the
current catalog prices into the running totals, and push the enhanced line
item. -/
def processReturnItems (store : String) :
    List LineItem → Inv → List EnhancedItem → Option ℚ → Option ℚ →
    Inv × Except Err (List EnhancedItem × Option ℚ × Option ℚ)
  | [], inv, acc, tL, tU => (inv, .ok (acc, tL, tU))
  | item :: rest, inv, acc, tL, tU =>
    match findOneProduct inv item.product store with
    | none => (inv, .error (.productNotFound item.product))
    | some p =>
      if item.quantity ≤ 0 then
        (inv, .error (.invalidQuantity p.item))
      else
        processReturnItems store rest (updateById inv item.product (incPieces item.quantity))
          (acc ++ [{ product := item.product, productName := p.item,
                     quantity := item.quantity,
                     priceAtSaleUSD := p.priceUSD, priceAtSaleLRD := p.priceLRD }])
          (jsAdd tL (jsMul p.priceLRD item.quantity))
          (jsAdd tU (jsMul p.priceUSD item.quantity))

/-- Embeds `createReturnTransaction`: store and non-empty-list checks, the per-item
return loop starting both totals at `0`, then a `return` Transaction is
built with the accumulated totals, the reason defaulted via
`returnReason || 'No reason provided'`, and the optional back-reference. -/
def createReturnTransaction (req : ReturnReq) (inv : Inv) : Inv × Except Err Transaction :=
  if req.store = "" then (inv, .error .storeRequired)
  else if req.productsReturned = [] then (inv, .error .emptyProducts)
  else
    match processReturnItems req.store req.productsReturned inv [] (some 0) (some 0) with
    | (inv', .error e) => (inv', .error e)
    | (inv', .ok (enhanced, tL, tU)) =>
      (inv', .ok
        { type := .ret
          store := req.store
          currency := req.currency
          productsSold := enhanced
          amountReceivedLRD := 0
          amountReceivedUSD := 0
          change := 0
          changeCurrency := some req.currency
          totalLRD := tL
          totalUSD := tU
          returnReason := some (jsOrStr req.returnReason "No reason provided")
          originalTransaction := req.originalTransactionId })

/-- Modelled from the spec: the CurrencyRate singleton document
(`models/CurrencyRate.js` is not part of the provided sources) holds
`lrdToUsd` and `updatedAt`. -/
structure CurrencyRate where
  lrdToUsd : ℚ
  updatedAt : Nat
deriving DecidableEq, Repr

/-- The state `updateRate` acts on: the (at most one) rate document and the
products collection. -/
structure RateState where
  rate : Option CurrencyRate
  products : Inv
deriving DecidableEq, Repr

/-- Embeds `let { lrdToUsd, rate: inputRate } = req.body` followed by
`if (!lrdToUsd && inputRate) lrdToUsd = inputRate`: the `rate` field is used
when `lrdToUsd` is falsy (absent or zero) and `rate` itself is truthy. -/
def mergeRate (lrdToUsd inputRate : Option ℚ) : Option ℚ :=
  if jsTruthy lrdToUsd = false ∧ jsTruthy inputRate = true then inputRate else lrdToUsd

/-- The validation `!lrdToUsd || isNaN(lrdToUsd) || lrdToUsd <= 0` on the
merged rate (in the rational model a number is never NaN). -/
def rateInvalid (m : Option ℚ) : Bool :=
  match m with
  | none => true
  | some v => decide (v = 0) || decide (v ≤ 0)

/-- Persisting the new rate: the existing singleton is updated in place
(`rate.lrdToUsd = ...; rate.updatedAt = Date.now()`), or a document is
created when none exists. Modelled from the spec: the created document's
`updatedAt` timestamp comes from the missing CurrencyRate schema and is
taken to be the request time. -/
def persistRate (v : ℚ) (now : Nat) (st : RateState) : RateState :=
  { st with rate := some { lrdToUsd := v, updatedAt := now } }

/-- The aggregation-pipeline update a single matched product undergoes:
stage 1 sets `priceLRD = priceUSD * rate`; stage 2 sets
`totalLRD = pieces * priceLRD` (with the stage-1 `priceLRD`) when
`$ifNull(pieces, false)` is truthy — i.e. when `pieces` is present and
nonzero, since `0` is falsy in a `$cond` — and keeps `totalLRD` otherwise.
Products whose `priceUSD` is missing do not match the filter and are
untouched. -/
def cascadeProduct (v : ℚ) (p : Product) : Product :=
  match p.priceUSD with
  | none => p
  | some u =>
    let p1 := { p with priceLRD := some (u * v) }
    { p1 with
      totalLRD :=
        match p1.pieces with
        | none => p1.totalLRD
        | some q => if q = 0 then p1.totalLRD else jsMul p1.priceLRD q }

/-- Embeds `Product.updateMany({priceUSD: {$exists: true, $ne: null}}, pipeline)`. -/
def cascadeState (v : ℚ) (st : RateState) : RateState :=
  { st with products := st.products.map (fun pr => (pr.1, cascadeProduct v pr.2)) }

/-- Embeds `updateRate`: merge the two body fields, validate, and on success persist
the rate-with-timestamp first and then run the product price cascade. On
rejection nothing is touched. -/
def updateRate (lrdToUsd inputRate : Option ℚ) (now : Nat) (st : RateState) :
    RateState × Except Err CurrencyRate :=
  match mergeRate lrdToUsd inputRate with
  | none => (st, .error .invalidRate)
  | some v =>
    if v = 0 ∨ v ≤ 0 then (st, .error .invalidRate)
    else (cascadeState v (persistRate v now st), .ok { lrdToUsd := v, updatedAt := now })

/-- The fields of a persisted transaction the sales report reads for one
line item. `productName`, `quantity` and both `priceAtSale` components are
`required` in the schema, so they are present on every stored document. -/
structure RItem where
  productName : String
  quantity : ℚ
  priceLRD : ℚ
  priceUSD : ℚ
deriving DecidableEq, Repr

/-- The fields of a persisted transaction the sales report reads. `dateKey`
is `transaction.date.toISOString().split('T')[0]`. -/
structure RTx where
  dateKey : String
  store : String
  currency : Currency
  totalLRD : Option ℚ
  totalUSD : Option ℚ
  amountReceivedLRD : Option ℚ
  amountReceivedUSD : Option ℚ
  change : Option ℚ
  productsSold : List RItem
deriving DecidableEq, Repr

/-- A `dailyTotals[dateKey]` bucket. -/
structure DayT where
  date : String
  totalLRD : ℚ
  totalUSD : ℚ
  transactions : Nat
  returns : Nat
  items : ℚ
deriving DecidableEq, Repr

/-- A `storeTotals[store]` bucket. -/
structure StoreT where
  store : String
  totalLRD : ℚ
  totalUSD : ℚ
  transactions : Nat
  returns : Nat
  items : ℚ
deriving DecidableEq, Repr

/-- A `productTotals[productName_store]` bucket. -/
structure ProdT where
  name : String
  store : String
  quantitySold : ℚ
  quantityReturned : ℚ
  totalLRD : ℚ
  totalUSD : ℚ
deriving DecidableEq, Repr

/-- The `overallTotals` accumulator. -/
structure OverallT where
  totalLRD : ℚ
  totalUSD : ℚ
  totalItems : ℚ
  totalTransactions : Nat
  totalReturns : Nat
  totalAmountReceivedLRD : ℚ
  totalAmountReceivedUSD : ℚ
  totalChangeLRD : ℚ
  totalChangeUSD : ℚ
deriving DecidableEq, Repr

/-- The `if (!m[key]) m[key] = init; mutate(m[key])` pattern on a keyed
bucket map, preserving insertion order as a JS object does. -/
def upsert {α : Type} : List (String × α) → String → α → (α → α) → List (String × α)
  | [], k, d, f => [(k, f d)]
  | (k', v) :: t, k, d, f =>
    if k' = k then (k', f v) :: t else (k', v) :: upsert t k d f

/-- Fresh daily bucket for a date key. -/
def dayInit (dateKey : String) : DayT :=
  { date := dateKey, totalLRD := 0, totalUSD := 0, transactions := 0, returns := 0, items := 0 }

/-- Fresh store bucket. -/
def storeInit (store : String) : StoreT :=
  { store := store, totalLRD := 0, totalUSD := 0, transactions := 0, returns := 0, items := 0 }

/-- Fresh product bucket. -/
def prodInit (name store : String) : ProdT :=
  { name := name, store := store, quantitySold := 0, quantityReturned := 0,
    totalLRD := 0, totalUSD := 0 }

/-- Sum of `product.quantity || 0` over a transaction's line items. -/
def itemsQty (t : RTx) : ℚ :=
  (t.productsSold.map (·.quantity)).sum

/-- One sale transaction folded into the daily buckets: totals are added
when truthy, the transaction count and the per-item quantities are added. -/
def foldSaleDay (m : List (String × DayT)) (t : RTx) : List (String × DayT) :=
  upsert m t.dateKey (dayInit t.dateKey) (fun d =>
    { d with
      totalLRD := d.totalLRD + (if jsTruthy t.totalLRD then jsOrZero t.totalLRD else 0)
      totalUSD := d.totalUSD + (if jsTruthy t.totalUSD then jsOrZero t.totalUSD else 0)
      transactions := d.transactions + 1
      items := d.items + itemsQty t })

/-- One return transaction folded into the daily buckets: truthy totals and
the per-item quantities are subtracted, the `returns` counter is added. -/
def foldRetDay (m : List (String × DayT)) (t : RTx) : List (String × DayT) :=
  upsert m t.dateKey (dayInit t.dateKey) (fun d =>
    { d with
      totalLRD := d.totalLRD - (if jsTruthy t.totalLRD then jsOrZero t.totalLRD else 0)
      totalUSD := d.totalUSD - (if jsTruthy t.totalUSD then jsOrZero t.totalUSD else 0)
      returns := d.returns + 1
      items := d.items - itemsQty t })

/-- One sale transaction folded into the store buckets. -/
def foldSaleStore (m : List (String × StoreT)) (t : RTx) : List (String × StoreT) :=
  upsert m t.store (storeInit t.store) (fun s =>
    { s with
      totalLRD := s.totalLRD + (if jsTruthy t.totalLRD then jsOrZero t.totalLRD else 0)
      totalUSD := s.totalUSD + (if jsTruthy t.totalUSD then jsOrZero t.totalUSD else 0)
      transactions := s.transactions + 1
      items := s.items + itemsQty t })

/-- One return transaction folded into the store buckets. -/
def foldRetStore (m : List (String × StoreT)) (t : RTx) : List (String × StoreT) :=
  upsert m t.store (storeInit t.store) (fun s =>
    { s with
      totalLRD := s.totalLRD - (if jsTruthy t.totalLRD then jsOrZero t.totalLRD else 0)
      totalUSD := s.totalUSD - (if jsTruthy t.totalUSD then jsOrZero t.totalUSD else 0)
      returns := s.returns + 1
      items := s.items - itemsQty t })

/-- One sale line item folded into the product buckets: quantity sold is
added, and revenue `priceAtSale * quantity` is added in the transaction's
currency (`LRD` to `totalLRD`, anything else to `totalUSD`). -/
def foldSaleProd (store : String) (cur : Currency) (m : List (String × ProdT))
    (it : RItem) : List (String × ProdT) :=
  upsert m (it.productName ++ "_" ++ store) (prodInit it.productName store) (fun p =>
    { p with
      quantitySold := p.quantitySold + it.quantity
      totalLRD := p.totalLRD + (if cur = .LRD then it.priceLRD * it.quantity else 0)
      totalUSD := p.totalUSD + (if cur = .LRD then 0 else it.priceUSD * it.quantity) })

/-- One return line item folded into the product buckets: quantity returned
is added and revenue is subtracted in the transaction's currency. -/
def foldRetProd (store : String) (cur : Currency) (m : List (String × ProdT))
    (it : RItem) : List (String × ProdT) :=
  upsert m (it.productName ++ "_" ++ store) (prodInit it.productName store) (fun p =>
    { p with
      quantityReturned := p.quantityReturned + it.quantity
      totalLRD := p.totalLRD - (if cur = .LRD then it.priceLRD * it.quantity else 0)
      totalUSD := p.totalUSD - (if cur = .LRD then 0 else it.priceUSD * it.quantity) })

/-- One sale transaction folded into `overallTotals`. -/
def foldSaleOverall (o : OverallT) (t : RTx) : OverallT :=
  { o with
    totalLRD := o.totalLRD + (if jsTruthy t.totalLRD then jsOrZero t.totalLRD else 0)
    totalUSD := o.totalUSD + (if jsTruthy t.totalUSD then jsOrZero t.totalUSD else 0)
    totalTransactions := o.totalTransactions + 1
    totalItems := o.totalItems + itemsQty t
    totalAmountReceivedLRD := o.totalAmountReceivedLRD +
      (if t.currency = .LRD ∧ jsTruthy t.amountReceivedLRD then jsOrZero t.amountReceivedLRD else 0)
    totalChangeLRD := o.totalChangeLRD +
      (if t.currency = .LRD ∧ jsTruthy t.amountReceivedLRD ∧ jsTruthy t.change then
        jsOrZero t.change else 0)
    totalAmountReceivedUSD := o.totalAmountReceivedUSD +
      (if t.currency = .USD ∧ jsTruthy t.amountReceivedUSD then jsOrZero t.amountReceivedUSD else 0)
    totalChangeUSD := o.totalChangeUSD +
      (if t.currency = .USD ∧ jsTruthy t.amountReceivedUSD ∧ jsTruthy t.change then
        jsOrZero t.change else 0) }

/-- One return transaction folded into `overallTotals`. -/
def foldRetOverall (o : OverallT) (t : RTx) : OverallT :=
  { o with
    totalLRD := o.totalLRD - (if jsTruthy t.totalLRD then jsOrZero t.totalLRD else 0)
    totalUSD := o.totalUSD - (if jsTruthy t.totalUSD then jsOrZero t.totalUSD else 0)
    totalReturns := o.totalReturns + 1
    totalItems := o.totalItems - itemsQty t }

/-- Zeroed `overallTotals`. -/
def overallInit : OverallT :=
  { totalLRD := 0, totalUSD := 0, totalItems := 0, totalTransactions := 0,
    totalReturns := 0, totalAmountReceivedLRD := 0, totalAmountReceivedUSD := 0,
    totalChangeLRD := 0, totalChangeUSD := 0 }

/-- The `Math.max(0, ...)` clamp applied to a daily bucket. -/
def clampDay (d : DayT) : DayT :=
  { d with totalLRD := max 0 d.totalLRD, totalUSD := max 0 d.totalUSD,
           items := max 0 d.items }

/-- The `Math.max(0, ...)` clamp applied to a store bucket. -/
def clampStore (s : StoreT) : StoreT :=
  { s with totalLRD := max 0 s.totalLRD, totalUSD := max 0 s.totalUSD,
           items := max 0 s.items }

/-- The `Math.max(0, ...)` clamp applied to a product bucket (only the
monetary fields are clamped in the source). -/
def clampProd (p : ProdT) : ProdT :=
  { p with totalLRD := max 0 p.totalLRD, totalUSD := max 0 p.totalUSD }

/-- The `Math.max(0, ...)` clamp applied to `overallTotals`. -/
def clampOverall (o : OverallT) : OverallT :=
  { o with totalLRD := max 0 o.totalLRD, totalUSD := max 0 o.totalUSD,
           totalItems := max 0 o.totalItems }

/-- The report body built by `getSalesReport` (the parts the rollup claims
concern; the sorted-array conversion and the recent-transactions list do not
change any bucket). -/
structure Report where
  dailyTotals : List (String × DayT)
  storeTotals : List (String × StoreT)
  productTotals : List (String × ProdT)
  overall : OverallT
deriving DecidableEq, Repr

/-- Embeds the folding core of `getSalesReport`: all sale transactions are folded first,
then all return transactions (the source iterates `salesTransactions` then
`returnTransactions`), into the three keyed rollups and the overall totals;
afterwards every monetary and quantity rollup field is clamped to a minimum
of zero. The single source pass updates the four independent accumulators
simultaneously; they are modelled as four independent folds. -/
def getSalesReport (sales returns : List RTx) : Report :=
  let daily := returns.foldl foldRetDay (sales.foldl foldSaleDay [])
  let stores := returns.foldl foldRetStore (sales.foldl foldSaleStore [])
  let prods :=
    returns.foldl (fun m t => t.productsSold.foldl (foldRetProd t.store t.currency) m)
      (sales.foldl (fun m t => t.productsSold.foldl (foldSaleProd t.store t.currency) m) [])
  let overall := returns.foldl foldRetOverall (sales.foldl foldSaleOverall overallInit)
  { dailyTotals := daily.map (fun e => (e.1, clampDay e.2))
    storeTotals := stores.map (fun e => (e.1, clampStore e.2))
    productTotals := prods.map (fun e => (e.1, clampProd e.2))
    overall := clampOverall overall }

/-- Sum of the quantities of the line items that request a given product. -/
def sumQty : List LineItem → Nat → ℚ
  | [], _ => 0
  | it :: rest, pid => (if it.product = pid then it.quantity else 0) + sumQty rest pid

/-- The current catalog LRD price of a product as seen by the return flow. -/
def curPriceLRD (inv : Inv) (store : String) (pid : Nat) : Option ℚ :=
  match findOneProduct inv pid store with
  | some p => p.priceLRD
  | none => none

/-- The current catalog USD price of a product as seen by the return flow. -/
def curPriceUSD (inv : Inv) (store : String) (pid : Nat) : Option ℚ :=
  match findOneProduct inv pid store with
  | some p => p.priceUSD
  | none => none

/-- Accumulation of return totals in LRD over the line items, priced against
a fixed inventory. -/
def retFoldL (inv : Inv) (store : String) (items : List LineItem) (t : Option ℚ) : Option ℚ :=
  items.foldl (fun s it => jsAdd s (jsMul (curPriceLRD inv store it.product) it.quantity)) t

/-- Accumulation of return totals in USD over the line items, priced against
a fixed inventory. -/
def retFoldU (inv : Inv) (store : String) (items : List LineItem) (t : Option ℚ) : Option ℚ :=
  items.foldl (fun s it => jsAdd s (jsMul (curPriceUSD inv store it.product) it.quantity)) t

/-- Every product of the inventory has a present, nonnegative
quantity-on-hand. -/
def NonNegInv (inv : Inv) : Prop :=
  ∀ pr ∈ inv, ∃ v, (pr.2 : Product).pieces = some v ∧ 0 ≤ v

/-- Modelled from the claim's wording, for comparison with the source's
`effRate`: the effective exchange rate described as "the caller-supplied
rate or the fixed fallback when omitted". -/
def effectiveRateSpec (r : Option ℚ) : ℚ :=
  r.getD 197

/-- A sample product for concrete runs: plentiful stock, both prices set. -/
def sampleProduct : Product :=
  { store := "main", item := "widget", pieces := some 100,
    priceUSD := some 2, priceLRD := some 394, totalLRD := some 39400 }

/-- A one-product sample inventory. -/
def sampleInv : Inv := [(1, sampleProduct)]

/-- A sale request for product 1, quantity 1, with the given payment
fields. -/
def mkSaleReq (cur : Currency) (aL aU tL tU rate : Option ℚ) : SaleReq :=
  { productsSold := [{ product := 1, quantity := 1 }], currency := cur, store := "main",
    amountReceivedLRD := aL, amountReceivedUSD := aU, change := none,
    changeCurrency := none, totalLRD := tL, totalUSD := tU, currencyRate := rate }

/-- A sample credit request: two widgets on the tab, no totals supplied. -/
def sampleCreditReq : CreditReq :=
  { productsSold := [⟨1, 2⟩], store := "main", customerName := "Al",
    totalLRD := none, totalUSD := none, currencyRate := none,
    preferredCurrency := none }

/-- A sample pending credit with a stored LRD total of 100. -/
def samplePendingCredit : Credit :=
  { productsSold := [], store := "main", customerName := "Al", totalLRD := 100,
    totalUSD := 0, status := .pending, preferredCurrency := .LRD, paidAt := none,
    paymentTransaction := none }

/-- A sample credit payment: 100 LRD in cash. -/
def samplePayReq : PayReq :=
  { currency := .LRD, store := "main", amountReceivedLRD := some 100,
    amountReceivedUSD := none, change := none, changeCurrency := none,
    currencyRate := none }

/-- A product with a defined USD price and a known-but-zero quantity on
hand, carrying a stale `totalLRD`. -/
def zeroPiecesProduct : Product :=
  { store := "s", item := "x", pieces := some 0, priceUSD := some 1,
    priceLRD := some 5, totalLRD := some 50 }

/-- Rate-update state holding only `zeroPiecesProduct`. -/
def zeroPiecesState : RateState :=
  { rate := none, products := [(1, zeroPiecesProduct)] }

/-- A sale request whose single line item has quantity `-5`. -/
def negQtySaleReq : SaleReq :=
  { productsSold := [⟨1, -5⟩], currency := .LRD, store := "main",
    amountReceivedLRD := some 0, amountReceivedUSD := none, change := none,
    changeCurrency := none, totalLRD := some 0, totalUSD := none, currencyRate := none }

/-- A return request whose single line item has quantity `-5`. -/
def negQtyReturnReq : ReturnReq :=
  { productsReturned := [⟨1, -5⟩], currency := .LRD, store := "main",
    returnReason := none, originalTransactionId := none }

/-- A return of two widgets. -/
def sampleReturnReq : ReturnReq :=
  { productsReturned := [⟨1, 2⟩], currency := .LRD, store := "main",
    returnReason := none, originalTransactionId := none }

/-- A return naming a product that does not exist in the store. -/
def missingReturnReq : ReturnReq :=
  { productsReturned := [⟨2, 1⟩], currency := .LRD, store := "main",
    returnReason := none, originalTransactionId := none }

/-- A stored return transaction worth 50 LRD, for report runs. -/
def retTx : RTx :=
  { dateKey := "2024-01-01", store := "main", currency := .LRD, totalLRD := some 50,
    totalUSD := none, amountReceivedLRD := none, amountReceivedUSD := none,
    change := none, productsSold := [] }

/-- The pre-clamp daily bucket produced by folding only `retTx`. -/
def retDayBucket : DayT :=
  { date := "2024-01-01", totalLRD := -50, totalUSD := 0, transactions := 0,
    returns := 1, items := 0 }

/-- A zero-LRD credit payment. -/
def zeroPayReq : PayReq :=
  { currency := .LRD, store := "main", amountReceivedLRD := some 0,
    amountReceivedUSD := none, change := none, changeCurrency := none,
    currencyRate := none }

theorem lookupById_updateById {α : Type} (l : List (Nat × α)) (i j : Nat) (f : α → α) :
    lookupById (updateById l i f) j =
      if j = i then (lookupById l i).map f else lookupById l j := by
  induction l with
  | nil => simp [lookupById, updateById]
  | cons hd tl ih =>
    obtain ⟨k, a⟩ := hd
    by_cases hk : k = i
    · subst hk
      by_cases hj : k = j
      · subst hj
        simp [lookupById, updateById]
      · have hj' : ¬ j = k := fun h => hj h.symm
        simp [lookupById, updateById, hj, hj']
    · by_cases hj : k = j
      · subst hj
        have hk' : ¬ k = i := hk
        simp [lookupById, updateById, hk, hk']
      · have hj' : ¬ j = k := fun h => hj h.symm
        simp [lookupById, updateById, hk, hj, hj', ih]

theorem lookupById_mem {α : Type} {l : List (Nat × α)} {i : Nat} {a : α}
    (h : lookupById l i = some a) : (i, a) ∈ l := by
  induction l with
  | nil => simp [lookupById] at h
  | cons hd tl ih =>
    obtain ⟨k, b⟩ := hd
    by_cases hk : k = i
    · subst hk
      simp [lookupById] at h
      simp [h]
    · simp [lookupById, hk] at h
      simp [ih h]

theorem mem_updateById {α : Type} {l : List (Nat × α)} {i : Nat} {f : α → α} {pr : Nat × α}
    (h : pr ∈ updateById l i f) :
    pr ∈ l ∨ ∃ a, lookupById l i = some a ∧ pr = (i, f a) := by
  induction l with
  | nil => simp [updateById] at h
  | cons hd tl ih =>
    obtain ⟨k, b⟩ := hd
    by_cases hk : k = i
    · subst hk
      simp [updateById] at h
      rcases h with h | h
      · exact Or.inr ⟨b, by simp [lookupById], h⟩
      · exact Or.inl (List.mem_cons_of_mem _ h)
    · simp [updateById, hk] at h
      rcases h with h | h
      · exact Or.inl (by simp [h])
      · rcases ih h with h' | ⟨a, ha, hpr⟩
        · exact Or.inl (List.mem_cons_of_mem _ h')
        · exact Or.inr ⟨a, by simp [lookupById, hk, ha], hpr⟩

theorem findOneProduct_updateById (inv : Inv) (i j : Nat) (store : String)
    (f : Product → Product) (hf : ∀ p, (f p).store = p.store) :
    findOneProduct (updateById inv i f) j store =
      if j = i then (findOneProduct inv i store).map f else findOneProduct inv j store := by
  unfold findOneProduct
  rw [lookupById_updateById]
  by_cases hj : j = i
  · subst hj
    cases h : lookupById inv j with
    | none => simp
    | some p =>
      by_cases hs : p.store = store <;> simp [hf p, hs]
  · simp [hj]

theorem decPieces_store (q : ℚ) (p : Product) : (decPieces q p).store = p.store := rfl

theorem incPieces_store (q : ℚ) (p : Product) : (incPieces q p).store = p.store := rfl

theorem lookupById_append_fresh {α : Type} (l : List (Nat × α)) (i : Nat) (c : α)
    (h : lookupById l i = none) : lookupById (l ++ [(i, c)]) i = some c := by
  induction l with
  | nil => simp [lookupById]
  | cons hd tl ih =>
    obtain ⟨k, b⟩ := hd
    by_cases hk : k = i
    · simp [lookupById, hk] at h
    · simp [lookupById, hk] at h ⊢
      exact ih h

theorem sumQty_eq_zero {items : List LineItem} {pid : Nat}
    (h : ∀ it ∈ items, it.product ≠ pid) : sumQty items pid = 0 := by
  induction items with
  | nil => rfl
  | cons it rest ih =>
    simp [sumQty, h it (by simp), ih (fun x hx => h x (by simp [hx]))]

theorem processItems_append (store : String) (l1 l2 : List LineItem) :
    ∀ inv acc,
      processItems store (l1 ++ l2) inv acc =
        match processItems store l1 inv acc with
        | (inv1, .ok acc1) => processItems store l2 inv1 acc1
        | (inv1, .error e) => (inv1, .error e) := by
  induction l1 with
  | nil => intro inv acc; simp [processItems]
  | cons item rest ih =>
    intro inv acc
    simp only [List.cons_append, processItems]
    cases hf : findOneProduct inv item.product store with
    | none => simp
    | some p =>
      by_cases hlt : piecesLt p.pieces item.quantity
      · simp [hlt]
      · simp only [hlt, Bool.false_eq_true, if_false]
        exact ih _ _

theorem processItems_ok_pieces (store : String) (items : List LineItem) :
    ∀ inv acc inv' acc' pid p,
      processItems store items inv acc = (inv', Except.ok acc') →
      lookupById inv pid = some p →
      ∃ p', lookupById inv' pid = some p' ∧
        p'.store = p.store ∧ p'.item = p.item ∧
        p'.priceUSD = p.priceUSD ∧ p'.priceLRD = p.priceLRD ∧
        p'.pieces = (if items.any (fun it => it.product = pid) then
            some (jsOrZero p.pieces - sumQty items pid) else p.pieces) := by
  induction items with
  | nil =>
    intro inv acc inv' acc' pid p h hp
    simp [processItems] at h
    exact ⟨p, by simp [← h.1, hp]⟩
  | cons item rest ih =>
    intro inv acc inv' acc' pid p h hp
    unfold processItems at h
    cases hf : findOneProduct inv item.product store with
    | none => simp [hf] at h
    | some p0 =>
      simp only [hf] at h
      by_cases hlt : piecesLt p0.pieces item.quantity
      · simp [hlt] at h
      · simp only [hlt, Bool.false_eq_true, if_false] at h
        by_cases hpid : item.product = pid
        · subst hpid
          have hlk : lookupById (updateById inv item.product (decPieces item.quantity))
              item.product = some (decPieces item.quantity p) := by
            rw [lookupById_updateById, if_pos rfl, hp]
            rfl
          obtain ⟨p', hp', hst, hit, hu, hl, hpieces⟩ := ih _ _ _ _ _ _ h hlk
          refine ⟨p', hp', by simpa [decPieces] using hst, by simpa [decPieces] using hit,
            by simpa [decPieces] using hu, by simpa [decPieces] using hl, ?_⟩
          rw [hpieces]
          by_cases hrest : rest.any (fun it => it.product = item.product)
          · simp only [hrest, List.any_cons, decide_eq_true_eq, if_true, Bool.true_or,
              decPieces, sumQty, jsOrZero, if_pos rfl]
            congr 1
            ring
          · have hz : sumQty rest item.product = 0 := by
              apply sumQty_eq_zero
              intro x hx hxx
              rw [List.any_eq_true] at hrest
              exact hrest ⟨x, hx, by simp [hxx]⟩
            simp only [hrest, List.any_cons, decide_eq_true_eq, Bool.false_eq_true, if_false,
              decPieces, sumQty, jsOrZero, hz, if_pos rfl]
            simp
        · have hpid' : ¬ pid = item.product := fun h' => hpid h'.symm
          have hlk : lookupById (updateById inv item.product (decPieces item.quantity))
              pid = some p := by
            rw [lookupById_updateById, if_neg hpid']
            exact hp
          obtain ⟨p', hp', hst, hit, hu, hl, hpieces⟩ := ih _ _ _ _ _ _ h hlk
          refine ⟨p', hp', hst, hit, hu, hl, ?_⟩
          rw [hpieces]
          simp [List.any_cons, hpid, sumQty]

theorem processItems_nonneg (store : String) (items : List LineItem) :
    ∀ inv acc, NonNegInv inv → NonNegInv (processItems store items inv acc).1 := by
  induction items with
  | nil => intro inv acc h; simpa [processItems] using h
  | cons item rest ih =>
    intro inv acc h
    unfold processItems
    cases hf : findOneProduct inv item.product store with
    | none => simpa using h
    | some p =>
      by_cases hlt : piecesLt p.pieces item.quantity
      · simpa [hlt] using h
      · simp only [hlt, Bool.false_eq_true, if_false]
        apply ih
        intro pr hpr
        rcases mem_updateById hpr with hin | ⟨a, ha, hpr'⟩
        · exact h pr hin
        · have hap : a = p := by
            unfold findOneProduct at hf
            cases hl : lookupById inv item.product with
            | none => simp [hl] at hf
            | some b =>
              simp only [hl] at hf
              by_cases hs : b.store = store
              · rw [hl] at ha
                simp [hs] at hf
                simp only [Option.some.injEq] at ha
                rw [← ha, hf]
              · simp [hs] at hf
          subst hap
          obtain ⟨v, hv, hv0⟩ := h (item.product, a) (lookupById_mem ha)
          have hv' : a.pieces = some v := hv
          have hq : item.quantity ≤ v := by
            by_contra hq
            rw [not_le] at hq
            apply hlt
            simp [piecesLt, hv', hq]
          refine ⟨jsOrZero a.pieces - item.quantity, by simp [hpr', decPieces], ?_⟩
          rw [hv']
          simp only [jsOrZero]
          linarith

theorem curPriceLRD_updateById (inv : Inv) (i : Nat) (store : String)
    (f : Product → Product) (hst : ∀ p, (f p).store = p.store)
    (hpr : ∀ p, (f p).priceLRD = p.priceLRD) (pid : Nat) :
    curPriceLRD (updateById inv i f) store pid = curPriceLRD inv store pid := by
  unfold curPriceLRD
  rw [findOneProduct_updateById inv i pid store f hst]
  by_cases hpid : pid = i
  · subst hpid
    cases h : findOneProduct inv pid store with
    | none => simp
    | some p => simp [hpr p]
  · simp [hpid]

theorem curPriceUSD_updateById (inv : Inv) (i : Nat) (store : String)
    (f : Product → Product) (hst : ∀ p, (f p).store = p.store)
    (hpr : ∀ p, (f p).priceUSD = p.priceUSD) (pid : Nat) :
    curPriceUSD (updateById inv i f) store pid = curPriceUSD inv store pid := by
  unfold curPriceUSD
  rw [findOneProduct_updateById inv i pid store f hst]
  by_cases hpid : pid = i
  · subst hpid
    cases h : findOneProduct inv pid store with
    | none => simp
    | some p => simp [hpr p]
  · simp [hpid]

theorem retFoldL_congr (store : String) (items : List LineItem) (inv inv2 : Inv)
    (h : ∀ pid, curPriceLRD inv2 store pid = curPriceLRD inv store pid) :
    ∀ t, retFoldL inv2 store items t = retFoldL inv store items t := by
  induction items with
  | nil => intro t; rfl
  | cons it rest ih =>
    intro t
    simp only [retFoldL, List.foldl_cons] at *
    rw [h it.product]
    exact ih _

theorem retFoldU_congr (store : String) (items : List LineItem) (inv inv2 : Inv)
    (h : ∀ pid, curPriceUSD inv2 store pid = curPriceUSD inv store pid) :
    ∀ t, retFoldU inv2 store items t = retFoldU inv store items t := by
  induction items with
  | nil => intro t; rfl
  | cons it rest ih =>
    intro t
    simp only [retFoldU, List.foldl_cons] at *
    rw [h it.product]
    exact ih _

theorem processReturnItems_append (store : String) (l1 l2 : List LineItem) :
    ∀ inv acc tL tU,
      processReturnItems store (l1 ++ l2) inv acc tL tU =
        match processReturnItems store l1 inv acc tL tU with
        | (inv1, .ok (acc1, tL1, tU1)) => processReturnItems store l2 inv1 acc1 tL1 tU1
        | (inv1, .error e) => (inv1, .error e) := by
  induction l1 with
  | nil => intro inv acc tL tU; simp [processReturnItems]
  | cons item rest ih =>
    intro inv acc tL tU
    simp only [List.cons_append, processReturnItems]
    cases hf : findOneProduct inv item.product store with
    | none => simp
    | some p =>
      by_cases hq : item.quantity ≤ 0
      · simp [hq]
      · simp only [hq, if_false]
        exact ih _ _ _ _

theorem processReturnItems_ok_pieces (store : String) (items : List LineItem) :
    ∀ inv acc tL tU inv' res pid p,
      processReturnItems store items inv acc tL tU = (inv', Except.ok res) →
      lookupById inv pid = some p →
      ∃ p', lookupById inv' pid = some p' ∧
        p'.store = p.store ∧ p'.item = p.item ∧
        p'.priceUSD = p.priceUSD ∧ p'.priceLRD = p.priceLRD ∧
        p'.pieces = (if items.any (fun it => it.product = pid) then
            some (jsOrZero p.pieces + sumQty items pid) else p.pieces) := by
  induction items with
  | nil =>
    intro inv acc tL tU inv' res pid p h hp
    simp [processReturnItems] at h
    exact ⟨p, by simp [← h.1, hp]⟩
  | cons item rest ih =>
    intro inv acc tL tU inv' res pid p h hp
    unfold processReturnItems at h
    cases hf : findOneProduct inv item.product store with
    | none => simp [hf] at h
    | some p0 =>
      simp only [hf] at h
      by_cases hq : item.quantity ≤ 0
      · simp [hq] at h
      · simp only [hq, if_false] at h
        by_cases hpid : item.product = pid
        · subst hpid
          have hlk : lookupById (updateById inv item.product (incPieces item.quantity))
              item.product = some (incPieces item.quantity p) := by
            rw [lookupById_updateById, if_pos rfl, hp]
            rfl
          obtain ⟨p', hp', hst, hit, hu, hl, hpieces⟩ := ih _ _ _ _ _ _ _ _ h hlk
          refine ⟨p', hp', by simpa [incPieces] using hst, by simpa [incPieces] using hit,
            by simpa [incPieces] using hu, by simpa [incPieces] using hl, ?_⟩
          rw [hpieces]
          by_cases hrest : rest.any (fun it => it.product = item.product)
          · simp only [hrest, List.any_cons, decide_eq_true_eq, if_true, Bool.true_or,
              incPieces, sumQty, jsOrZero, if_pos rfl]
            congr 1
            ring
          · have hz : sumQty rest item.product = 0 := by
              apply sumQty_eq_zero
              intro x hx hxx
              rw [List.any_eq_true] at hrest
              exact hrest ⟨x, hx, by simp [hxx]⟩
            simp only [hrest, List.any_cons, decide_eq_true_eq, Bool.false_eq_true, if_false,
              incPieces, sumQty, jsOrZero, hz, if_pos rfl]
            simp
        · have hpid' : ¬ pid = item.product := fun h' => hpid h'.symm
          have hlk : lookupById (updateById inv item.product (incPieces item.quantity))
              pid = some p := by
            rw [lookupById_updateById, if_neg hpid']
            exact hp
          obtain ⟨p', hp', hst, hit, hu, hl, hpieces⟩ := ih _ _ _ _ _ _ _ _ h hlk
          refine ⟨p', hp', hst, hit, hu, hl, ?_⟩
          rw [hpieces]
          simp [List.any_cons, hpid, sumQty]

theorem processReturnItems_totals (store : String) (items : List LineItem) :
    ∀ inv acc tL tU inv' acc' tL' tU',
      processReturnItems store items inv acc tL tU = (inv', Except.ok (acc', tL', tU')) →
      tL' = retFoldL inv store items tL ∧ tU' = retFoldU inv store items tU := by
  induction items with
  | nil =>
    intro inv acc tL tU inv' acc' tL' tU' h
    simp [processReturnItems] at h
    simp [retFoldL, retFoldU, h.2.2.1, h.2.2.2]
  | cons item rest ih =>
    intro inv acc tL tU inv' acc' tL' tU' h
    unfold processReturnItems at h
    cases hf : findOneProduct inv item.product store with
    | none => simp [hf] at h
    | some p0 =>
      simp only [hf] at h
      by_cases hq : item.quantity ≤ 0
      · simp [hq] at h
      · simp only [hq, if_false] at h
        obtain ⟨h1, h2⟩ := ih _ _ _ _ _ _ _ _ h
        have hstab1 : ∀ pid, curPriceLRD (updateById inv item.product
            (incPieces item.quantity)) store pid = curPriceLRD inv store pid :=
          curPriceLRD_updateById inv item.product store _ (incPieces_store _) (fun _ => rfl)
        have hstab2 : ∀ pid, curPriceUSD (updateById inv item.product
            (incPieces item.quantity)) store pid = curPriceUSD inv store pid :=
          curPriceUSD_updateById inv item.product store _ (incPieces_store _) (fun _ => rfl)
        have hcurL : curPriceLRD inv store item.product = p0.priceLRD := by
          unfold curPriceLRD
          rw [hf]
        have hcurU : curPriceUSD inv store item.product = p0.priceUSD := by
          unfold curPriceUSD
          rw [hf]
        constructor
        · rw [h1, retFoldL_congr store rest inv
            (updateById inv item.product (incPieces item.quantity)) hstab1]
          simp only [retFoldL, List.foldl_cons, hcurL]
        · rw [h2, retFoldU_congr store rest inv
            (updateById inv item.product (incPieces item.quantity)) hstab2]
          simp only [retFoldU, List.foldl_cons, hcurU]

theorem processReturnItems_ok_of (store : String) (items : List LineItem) :
    ∀ inv acc tL tU,
      (∀ it ∈ items, (findOneProduct inv it.product store).isSome ∧ 0 < it.quantity) →
      ∃ inv' acc' tL' tU',
        processReturnItems store items inv acc tL tU = (inv', Except.ok (acc', tL', tU')) := by
  induction items with
  | nil =>
    intro inv acc tL tU _
    exact ⟨inv, acc, tL, tU, rfl⟩
  | cons item rest ih =>
    intro inv acc tL tU hcond
    obtain ⟨hpres, hqpos⟩ := hcond item (by simp)
    rw [Option.isSome_iff_exists] at hpres
    obtain ⟨p, hp⟩ := hpres
    have hq : ¬ (item.quantity ≤ 0) := not_le.mpr hqpos
    have hcond' : ∀ it ∈ rest,
        (findOneProduct (updateById inv item.product (incPieces item.quantity))
          it.product store).isSome ∧ 0 < it.quantity := by
      intro it hit
      obtain ⟨hp2, hq2⟩ := hcond it (by simp [hit])
      refine ⟨?_, hq2⟩
      rw [findOneProduct_updateById inv item.product it.product store _ (incPieces_store _)]
      by_cases hpe : it.product = item.product
      · rw [if_pos hpe, hpe] at *
        rw [hp]
        simp
      · simpa [hpe] using hp2
    obtain ⟨inv', acc', tL', tU', hres⟩ := ih _ _ _ _ hcond'
    refine ⟨inv', acc', tL', tU', ?_⟩
    unfold processReturnItems
    rw [hp]
    simp only [hq, if_false]
    exact hres

/-- C1, counterexample: the claim reads the `BOTH` check as failing iff
`amountReceivedLRD + amountReceivedUSD * effectiveRate < totalLRD` with
`effectiveRate` being "the caller-supplied rate or the fixed fallback when
omitted". With the rate supplied as `0` the code's `currencyRate || 197`
uses the fallback `197` and accepts `500 + 3*197 = 1091 ≥ 1000`, while the
claim's reading uses the supplied `0` and predicts rejection
(`500 + 0 < 1000`): the claimed equivalence is false at this input. -/
theorem C1_counterexample :
    ¬ ((validatePayment .BOTH (some 500) (some 3) (some 1000) none (some 0) ≠ none) ↔
        (500 : ℚ) + 3 * effectiveRateSpec (some 0) < 1000) := by
  intro h
  have hrhs : (500 : ℚ) + 3 * effectiveRateSpec (some 0) < 1000 := by
    norm_num [effectiveRateSpec]
  exact h.mpr hrhs (by norm_num [validatePayment, jsLtU, effRate])

/-- C1, amended: the payment-sufficiency check of `createTransaction` fails
exactly when — `LRD`: the LRD amount is not a typed number or is below
`totalLRD`; `USD`: symmetrically; `BOTH`: either amount is not a typed
number or `amountReceivedLRD + amountReceivedUSD * effectiveRate < totalLRD`
— where the effective rate is the caller-supplied rate when present and
nonzero and the fixed fallback `197` when omitted or zero. The claim's
concrete instances all hold: with `totalLRD = 1000`, `amountReceivedLRD =
500`, rate `197`, `amountReceivedUSD = 3` makes the sale succeed and `2`
makes it fail with a 400 validation error; with currency `LRD` and total
`1000`, an LRD amount of `999` fails and `1000` succeeds. -/
theorem C1_payment_sufficiency :
    (∀ (aL aU : Option ℚ) (tL : ℚ) (tU r : Option ℚ),
      validatePayment .LRD aL aU (some tL) tU r ≠ none ↔
        (aL = none ∨ ∃ a, aL = some a ∧ a < tL)) ∧
    (∀ (aL aU : Option ℚ) (tU : ℚ) (tL r : Option ℚ),
      validatePayment .USD aL aU tL (some tU) r ≠ none ↔
        (aU = none ∨ ∃ u, aU = some u ∧ u < tU)) ∧
    (∀ (aL aU : Option ℚ) (tL : ℚ) (tU r : Option ℚ),
      validatePayment .BOTH aL aU (some tL) tU r ≠ none ↔
        (aL = none ∨ aU = none ∨
          ∃ a u, aL = some a ∧ aU = some u ∧ a + u * effRate r < tL)) ∧
    (createTransaction (mkSaleReq .BOTH (some 500) (some 3) (some 1000) none (some 197))
        sampleInv).2.isOk = true ∧
    (createTransaction (mkSaleReq .BOTH (some 500) (some 2) (some 1000) none (some 197))
        sampleInv).2 = .error .combinedInsufficient ∧
    (createTransaction (mkSaleReq .LRD (some 999) none (some 1000) none none)
        sampleInv).2 = .error .amountLRDInsufficient ∧
    (createTransaction (mkSaleReq .LRD (some 1000) none (some 1000) none none)
        sampleInv).2.isOk = true ∧
    Err.combinedInsufficient.httpStatus = 400 ∧
    Err.amountLRDInsufficient.httpStatus = 400 := by
  refine ⟨?_, ?_, ?_, ?_, ?_, ?_, ?_, rfl, rfl⟩
  · intro aL aU tL tU r
    cases aL with
    | none => simp [validatePayment]
    | some a =>
      by_cases hlt : a < tL <;> simp [validatePayment, jsLtU, hlt]
  · intro aL aU tU tL r
    cases aU with
    | none => simp [validatePayment]
    | some u =>
      by_cases hlt : u < tU <;> simp [validatePayment, jsLtU, hlt]
  · intro aL aU tL tU r
    cases aL with
    | none => simp [validatePayment]
    | some a =>
      cases aU with
      | none => simp [validatePayment]
      | some u =>
        by_cases hlt : a + u * effRate r < tL <;> simp [validatePayment, jsLtU, hlt]
  · norm_num [createTransaction, mkSaleReq, sampleInv, sampleProduct, processItems,
      findOneProduct, lookupById, piecesLt, decPieces, jsOrZero, updateById,
      validatePayment, jsLtU, effRate, Except.isOk, Except.toBool,
      (show ¬("main" = "") from by decide)]
  · norm_num [createTransaction, mkSaleReq, sampleInv, sampleProduct, processItems,
      findOneProduct, lookupById, piecesLt, decPieces, jsOrZero, updateById,
      validatePayment, jsLtU, effRate,
      (show ¬("main" = "") from by decide)]
  · norm_num [createTransaction, mkSaleReq, sampleInv, sampleProduct, processItems,
      findOneProduct, lookupById, piecesLt, decPieces, jsOrZero, updateById,
      validatePayment, jsLtU, effRate,
      (show ¬("main" = "") from by decide)]
  · norm_num [createTransaction, mkSaleReq, sampleInv, sampleProduct, processItems,
      findOneProduct, lookupById, piecesLt, decPieces, jsOrZero, updateById,
      validatePayment, jsLtU, effRate, Except.isOk, Except.toBool,
      (show ¬("main" = "") from by decide)]

theorem processItems_pieces_sub {store : String} {items : List LineItem} {inv : Inv}
    {acc : List EnhancedItem} {inv' : Inv} {acc' : List EnhancedItem} {pid : Nat}
    {p : Product} {v : ℚ}
    (h : processItems store items inv acc = (inv', Except.ok acc'))
    (hp : lookupById inv pid = some p) (hv : p.pieces = some v) :
    ∃ p', lookupById inv' pid = some p' ∧ p'.pieces = some (v - sumQty items pid) := by
  obtain ⟨p', hp', _, _, _, _, hpieces⟩ :=
    processItems_ok_pieces store items inv acc inv' acc' pid p h hp
  refine ⟨p', hp', ?_⟩
  rw [hpieces]
  by_cases hany : items.any (fun it => it.product = pid)
  · simp [hany, jsOrZero, hv]
  · have hz : sumQty items pid = 0 := by
      apply sumQty_eq_zero
      intro x hx hxx
      rw [List.any_eq_true] at hany
      exact hany ⟨x, hx, by simp [hxx]⟩
    simp [hany, hv, hz]

/-- C2: when `createTransaction` or `createCredit` fails after the per-item
loop has processed a prefix `pre` of the line items — because a later item's
product is missing or insufficiently stocked, or (for the sale) because the
payment check fails — the returned inventory is exactly the loop's state:
the decrements for the processed prefix (each product's quantity reduced by
the prefix's requested quantities, first conjunct) are still in effect and
no compensating rollback happens. -/
theorem C2_no_rollback (req : SaleReq) (pre post : List LineItem) (inv inv1 : Inv)
    (acc1 : List EnhancedItem)
    (hsplit : req.productsSold = pre ++ post)
    (hstore : ¬ req.store = "")
    (hpre : processItems req.store pre inv [] = (inv1, Except.ok acc1)) :
    (∀ pid p v, lookupById inv pid = some p → p.pieces = some v →
      ∃ p', lookupById inv1 pid = some p' ∧ p'.pieces = some (v - sumQty pre pid)) ∧
    (∀ inv2 e, processItems req.store post inv1 acc1 = (inv2, Except.error e) →
      createTransaction req inv = (inv2, Except.error e)) ∧
    (∀ inv2 acc2 e, processItems req.store post inv1 acc1 = (inv2, Except.ok acc2) →
      validatePayment req.currency req.amountReceivedLRD req.amountReceivedUSD
        req.totalLRD req.totalUSD req.currencyRate = some e →
      createTransaction req inv = (inv2, Except.error e)) ∧
    (∀ (creq : CreditReq) (credits : Credits) (newId : Nat) inv2 e,
      creq.productsSold = pre ++ post → creq.store = req.store →
      ¬ jsTrim creq.customerName = "" →
      processItems req.store post inv1 acc1 = (inv2, Except.error e) →
      createCredit creq newId inv credits = (inv2, credits, Except.error e)) := by
  refine ⟨?_, ?_, ?_, ?_⟩
  · intro pid p v hp hv
    obtain ⟨p', hp', _, _, _, _, hpieces⟩ :=
      processItems_ok_pieces req.store pre inv [] inv1 acc1 pid p hpre hp
    refine ⟨p', hp', ?_⟩
    rw [hpieces]
    by_cases hany : pre.any (fun it => it.product = pid)
    · simp [hany, jsOrZero, hv]
    · have hz : sumQty pre pid = 0 := by
        apply sumQty_eq_zero
        intro x hx hxx
        rw [List.any_eq_true] at hany
        exact hany ⟨x, hx, by simp [hxx]⟩
      simp [hany, hv, hz]
  · intro inv2 e hpost
    simp only [createTransaction, if_neg hstore, hsplit,
      processItems_append req.store pre post inv [], hpre, hpost]
  · intro inv2 acc2 e hpost hpay
    simp only [createTransaction, if_neg hstore, hsplit,
      processItems_append req.store pre post inv [], hpre, hpost, hpay]
  · intro creq credits newId inv2 e hsplit' hst hname hpost
    simp only [createCredit, hst, if_neg hstore, if_neg hname, hsplit',
      processItems_append req.store pre post inv [], hpre, hpost]

/-- C2 witness: a concrete run — product 1 has 10 pieces, product 2 does not
exist; selling `[(1, 4), (2, 1)]` fails on the second item and leaves
product 1 decremented to 6. -/
theorem C2_no_rollback_witness :
    let req : SaleReq :=
      { productsSold := [⟨1, 4⟩, ⟨2, 1⟩], currency := .LRD, store := "main",
        amountReceivedLRD := some 0, amountReceivedUSD := none, change := none,
        changeCurrency := none, totalLRD := some 0, totalUSD := none, currencyRate := none }
    ∃ p', lookupById (createTransaction req sampleInv).1 1 = some p' ∧
      p'.pieces = some (100 - sumQty [⟨1, 4⟩] 1) := by
  intro req
  have hpre : processItems req.store [⟨1, 4⟩] sampleInv [] =
      ([(1, decPieces 4 sampleProduct)],
        Except.ok [{ product := 1, productName := "widget", quantity := 4,
                     priceAtSaleUSD := some 2, priceAtSaleLRD := some 394 }]) := by
    norm_num [processItems, sampleInv, sampleProduct, findOneProduct, lookupById,
      piecesLt, updateById, req]
  have h := C2_no_rollback req [⟨1, 4⟩] [⟨2, 1⟩] sampleInv
    [(1, decPieces 4 sampleProduct)]
    [{ product := 1, productName := "widget", quantity := 4,
       priceAtSaleUSD := some 2, priceAtSaleLRD := some 394 }]
    rfl (by decide) hpre
  have h2 := h.2.1 [(1, decPieces 4 sampleProduct)] (.productNotFound 2)
    (by norm_num [processItems, findOneProduct, lookupById, decPieces, sampleProduct, req])
  have h1 := h.1 1 sampleProduct 100 (by simp [sampleInv, lookupById]) (by simp [sampleProduct])
  rw [h2]
  simpa using h1

/-- C7: sequential inventory accounting of the sale/credit loop. First
conjunct: from an inventory whose products all have a present, nonnegative
quantity-on-hand, the loop state stays nonnegative whatever items it
processes and wherever it stops — since every intermediate state of the
sequential execution is itself the exit state of such a loop run (on the
remaining suffix), quantity-on-hand never becomes negative at any point;
the check against the freshly re-read quantity precedes each decrement.
Second and third conjuncts: any successful `createTransaction` or
`createCredit` leaves every product's quantity reduced by exactly the sum
of the line-item quantities that requested it. -/
theorem C7_inventory_accounting :
    (∀ (store : String) (items : List LineItem) (inv : Inv) (acc : List EnhancedItem),
      NonNegInv inv → NonNegInv (processItems store items inv acc).1) ∧
    (∀ (req : SaleReq) (inv inv' : Inv) (tx : Transaction) (pid : Nat) (p : Product) (v : ℚ),
      createTransaction req inv = (inv', Except.ok tx) →
      lookupById inv pid = some p → p.pieces = some v →
      ∃ p', lookupById inv' pid = some p' ∧
        p'.pieces = some (v - sumQty req.productsSold pid)) ∧
    (∀ (req : CreditReq) (newId : Nat) (inv inv' : Inv) (credits credits' : Credits)
        (c : Credit) (pid : Nat) (p : Product) (v : ℚ),
      createCredit req newId inv credits = (inv', credits', Except.ok c) →
      lookupById inv pid = some p → p.pieces = some v →
      ∃ p', lookupById inv' pid = some p' ∧
        p'.pieces = some (v - sumQty req.productsSold pid)) := by
  refine ⟨processItems_nonneg, ?_, ?_⟩
  · intro req inv inv' tx pid p v h hp hv
    by_cases hstore : req.store = ""
    · simp [createTransaction, hstore] at h
    · simp only [createTransaction, if_neg hstore] at h
      rcases hpi : processItems req.store req.productsSold inv [] with ⟨inv2, r⟩
      rw [hpi] at h
      cases r with
      | error e => simp at h
      | ok enhanced =>
        cases hval : validatePayment req.currency req.amountReceivedLRD
            req.amountReceivedUSD req.totalLRD req.totalUSD req.currencyRate with
        | some e => simp [hval] at h
        | none =>
          simp only [hval] at h
          have hinv : inv2 = inv' := (Prod.mk.injEq _ _ _ _ ▸ h).1
          subst hinv
          exact processItems_pieces_sub hpi hp hv
  · intro req newId inv inv' credits credits' c pid p v h hp hv
    by_cases hstore : req.store = ""
    · simp [createCredit, hstore] at h
    · by_cases hname : jsTrim req.customerName = ""
      · simp [createCredit, hstore, hname] at h
      · simp only [createCredit, if_neg hstore, if_neg hname] at h
        rcases hpi : processItems req.store req.productsSold inv [] with ⟨inv2, r⟩
        rw [hpi] at h
        cases r with
        | error e => simp at h
        | ok enhanced =>
          simp only at h
          have hinv : inv2 = inv' := (Prod.mk.injEq _ _ _ _ ▸ h).1
          subst hinv
          exact processItems_pieces_sub hpi hp hv

/-- C7 witness: concrete runs — the sample inventory is nonnegative and
stays so through a loop run; a concrete sale of one widget takes product 1
from 100 to 99 pieces, and a concrete credit of two widgets takes it from
100 to 98. -/
theorem C7_inventory_accounting_witness :
    NonNegInv (processItems "main" [⟨1, 4⟩] sampleInv []).1 ∧
    (∃ p', lookupById
        (createTransaction (mkSaleReq .LRD (some 0) none none none none) sampleInv).1 1 =
          some p' ∧
      p'.pieces = some (100 - sumQty [⟨1, 1⟩] 1)) ∧
    (∃ p', lookupById
        (createCredit sampleCreditReq 7 sampleInv []).1 1 = some p' ∧
      p'.pieces = some (100 - sumQty [⟨1, 2⟩] 1)) := by
  have hnn : NonNegInv sampleInv := by
    intro pr hpr
    simp only [sampleInv, List.mem_singleton] at hpr
    subst hpr
    exact ⟨100, rfl, by norm_num⟩
  refine ⟨C7_inventory_accounting.1 "main" [⟨1, 4⟩] sampleInv [] hnn, ?_, ?_⟩
  · have hres : createTransaction (mkSaleReq .LRD (some 0) none none none none) sampleInv =
        ([(1, { store := "main", item := "widget", pieces := some 99,
                priceUSD := some 2, priceLRD := some 394, totalLRD := some 39400 })],
          Except.ok
            { type := .sale, store := "main", currency := .LRD,
              productsSold := [{ product := 1, productName := "widget", quantity := 1,
                                 priceAtSaleUSD := some 2, priceAtSaleLRD := some 394 }],
              amountReceivedLRD := 0, amountReceivedUSD := 0, change := 0,
              changeCurrency := some .LRD, totalLRD := some 0, totalUSD := some 0,
              returnReason := none, originalTransaction := none }) := by
      norm_num [createTransaction, mkSaleReq, sampleInv, sampleProduct, processItems,
        findOneProduct, lookupById, piecesLt, decPieces, jsOrZero, updateById,
        validatePayment, jsLtU, (show ¬("main" = "") from by decide),
        (show ¬(Currency.LRD = Currency.BOTH) from by decide)]
    have happ := C7_inventory_accounting.2.1 _ _ _ _ 1 sampleProduct 100 hres
      (by simp [sampleInv, lookupById]) (by simp [sampleProduct])
    rw [hres]
    simpa [mkSaleReq] using happ
  · have hres : createCredit sampleCreditReq 7 sampleInv [] =
        ([(1, { store := "main", item := "widget", pieces := some 98,
                priceUSD := some 2, priceLRD := some 394, totalLRD := some 39400 })],
          [(7, { productsSold := [{ product := 1, productName := "widget", quantity := 2,
                                    priceAtSaleUSD := some 2, priceAtSaleLRD := some 394 }],
                 store := "main", customerName := "Al", totalLRD := 0, totalUSD := 0,
                 status := .pending, preferredCurrency := .LRD, paidAt := none,
                 paymentTransaction := none })],
          Except.ok
            { productsSold := [{ product := 1, productName := "widget", quantity := 2,
                                 priceAtSaleUSD := some 2, priceAtSaleLRD := some 394 }],
              store := "main", customerName := "Al", totalLRD := 0, totalUSD := 0,
              status := .pending, preferredCurrency := .LRD, paidAt := none,
              paymentTransaction := none }) := by
      norm_num [createCredit, sampleCreditReq, sampleInv, sampleProduct, processItems,
        findOneProduct, lookupById, piecesLt, decPieces, jsOrZero, updateById,
        (show ¬("main" = "") from by decide), (show ¬(jsTrim "Al" = "") from by decide)]
    have happ := C7_inventory_accounting.2.2 _ 7 _ _ _ _ _ 1 sampleProduct 100 hres
      (by simp [sampleInv, lookupById]) (by simp [sampleProduct])
    rw [hres]
    simpa [sampleCreditReq] using happ

theorem validatePayment_ne_notFound (cur : Currency) (aL aU tL tU r : Option ℚ) :
    validatePayment cur aL aU tL tU r ≠ some .pendingCreditNotFound := by
  cases cur <;> cases aL <;> cases aU <;> simp only [validatePayment] <;>
    (try split_ifs) <;> simp

/-- C3: `payCredit` returns the 404 pending-credit-not-found error exactly
when no credit with the given id and store in status `pending` exists (a
non-empty store is assumed, as the empty store is rejected up front). On a
pending credit whose payment validation passes it creates a `sale`
Transaction whose line items and totals equal the credit's stored ones,
flips the credit to `paid`, stamps `paidAt` and links `paymentTransaction`
to the new transaction's id — after which a second `payCredit` on the same
credit returns the not-found error again: the pending-to-paid transition
happens exactly once. -/
theorem C3_payCredit (credits : Credits) (id : Nat) (req : PayReq) (now txId : Nat)
    (hstore : ¬ req.store = "") :
    ((payCredit id req now txId credits).2 = Except.error .pendingCreditNotFound ↔
      ¬ ∃ c, lookupById credits id = some c ∧ c.store = req.store ∧ c.status = .pending) ∧
    Err.pendingCreditNotFound.httpStatus = 404 ∧
    (∀ c, lookupById credits id = some c → c.store = req.store → c.status = .pending →
      validatePayment req.currency req.amountReceivedLRD req.amountReceivedUSD
        (some c.totalLRD) (some c.totalUSD) req.currencyRate = none →
      ∃ credits' c' tx, payCredit id req now txId credits = (credits', Except.ok (c', tx)) ∧
        tx.type = .sale ∧ tx.productsSold = c.productsSold ∧
        tx.totalLRD = some c.totalLRD ∧ tx.totalUSD = some c.totalUSD ∧
        c'.status = .paid ∧ c'.paidAt = some now ∧ c'.paymentTransaction = some txId ∧
        lookupById credits' id = some c' ∧
        (∀ (req2 : PayReq) (now2 txId2 : Nat), ¬ req2.store = "" →
          (payCredit id req2 now2 txId2 credits').2 = Except.error .pendingCreditNotFound)) := by
  refine ⟨?_, rfl, ?_⟩
  · constructor
    · intro he hex
      obtain ⟨c, hc, hst, hstat⟩ := hex
      cases hval : validatePayment req.currency req.amountReceivedLRD
          req.amountReceivedUSD (some c.totalLRD) (some c.totalUSD) req.currencyRate with
      | some e =>
        have hres : (payCredit id req now txId credits).2 = Except.error e := by
          simp [payCredit, if_neg hstore, hc, hst, hstat, hval]
        rw [hres] at he
        injection he with h
        exact validatePayment_ne_notFound _ _ _ _ _ _ (h ▸ hval)
      | none =>
        have hres : (payCredit id req now txId credits).2.isOk = true := by
          simp [payCredit, if_neg hstore, hc, hst, hstat, hval, Except.isOk, Except.toBool]
        rw [he] at hres
        simp [Except.isOk, Except.toBool] at hres
    · intro hex
      cases hc : lookupById credits id with
      | none => simp [payCredit, if_neg hstore, hc]
      | some c =>
        have hcond : ¬ (c.store = req.store ∧ c.status = .pending) := by
          intro hcond
          exact hex ⟨c, hc, hcond.1, hcond.2⟩
        simp [payCredit, if_neg hstore, hc, hcond]
  · intro c hc hst hstat hval
    refine ⟨updateById credits id (fun _ =>
        { c with status := .paid, paidAt := some now, paymentTransaction := some txId }),
      { c with status := .paid, paidAt := some now, paymentTransaction := some txId },
      { type := .sale, store := req.store, currency := req.currency,
        productsSold := c.productsSold,
        amountReceivedLRD := if req.currency = .USD then 0 else jsOrZero req.amountReceivedLRD,
        amountReceivedUSD := if req.currency = .LRD then 0 else jsOrZero req.amountReceivedUSD,
        change := jsOrZero req.change,
        changeCurrency := if req.currency = .BOTH then req.changeCurrency else some req.currency,
        totalLRD := some c.totalLRD, totalUSD := some c.totalUSD,
        returnReason := none, originalTransaction := none },
      ?_, rfl, rfl, rfl, rfl, rfl, rfl, rfl, ?_, ?_⟩
    · simp [payCredit, if_neg hstore, hc, hst, hstat, hval]
    · rw [lookupById_updateById, if_pos rfl, hc]
      rfl
    · intro req2 now2 txId2 hstore2
      simp [payCredit, if_neg hstore2, lookupById_updateById, hc]

/-- C3 witness: paying credit 5 (pending, total 100 LRD, store "main") with
100 LRD succeeds, yields a transaction with total `some 100`, marks the
credit paid, and a second identical `payCredit` call reports the pending
credit as not found. -/
theorem C3_payCredit_witness :
    ∃ credits' c' tx,
      payCredit 5 samplePayReq 11 42 [(5, samplePendingCredit)] =
        (credits', Except.ok (c', tx)) ∧
      tx.totalLRD = some 100 ∧ c'.status = .paid ∧
      (payCredit 5 samplePayReq 12 43 credits').2 =
        Except.error .pendingCreditNotFound := by
  obtain ⟨credits', c', tx, hres, htype, hprod, htL, htU, hstat, hpaid, hlink, hlook, hsecond⟩ :=
    (C3_payCredit [(5, samplePendingCredit)] 5 samplePayReq 11 42 (by decide)).2.2
      samplePendingCredit (by simp [lookupById]) rfl rfl
      (by norm_num [validatePayment, jsLtU, samplePayReq, samplePendingCredit])
  exact ⟨credits', c', tx, hres, by rw [htL]; rfl, hstat,
    hsecond samplePayReq 12 43 (by decide)⟩

/-- C4, counterexample: after a successful rate update to 2, the product
with `priceUSD = 1`, a known quantity-on-hand of `0`, and a stale
`totalLRD = 50` gets the new `priceLRD = 1 * 2` but keeps `totalLRD = 50`
instead of the claimed `quantity * priceLRD = 0 * (1 * 2) = 0`: the
aggregation pipeline's `$cond` treats the falsy quantity `0` as unknown and
skips the `totalLRD` recompute. -/
theorem C4_counterexample :
    ∃ p', lookupById ((updateRate (some 2) none 0 zeroPiecesState).1).products 1 = some p' ∧
      p'.priceUSD = some 1 ∧ p'.pieces = some 0 ∧ p'.priceLRD = some (1 * 2) ∧
      p'.totalLRD = some 50 ∧ ¬ p'.totalLRD = some ((0 : ℚ) * (1 * 2)) := by
  refine ⟨cascadeProduct 2 zeroPiecesProduct, ?_, rfl, rfl, by norm_num [cascadeProduct,
    zeroPiecesProduct], rfl, ?_⟩
  · norm_num [updateRate, mergeRate, jsTruthy, zeroPiecesState, cascadeState, persistRate,
      lookupById]
  · norm_num [cascadeProduct, zeroPiecesProduct]

/-- C4, amended: on a successful rate update every product with a defined
USD price ends with `priceLRD = priceUSD * newRate`, and where the
quantity-on-hand is known *and nonzero* additionally
`totalLRD = priceLRD * quantity`; a product whose quantity is missing or
zero keeps its previous `totalLRD`, and a product without a defined USD
price is left entirely untouched by the cascade. -/
theorem C4_rate_cascade (l r : Option ℚ) (now : Nat) (st : RateState) (v : ℚ)
    (hm : mergeRate l r = some v) (hv : 0 < v) :
    (updateRate l r now st).2 = Except.ok { lrdToUsd := v, updatedAt := now } ∧
    ((updateRate l r now st).1).products =
      st.products.map (fun pr => (pr.1, cascadeProduct v pr.2)) ∧
    (∀ (p : Product) (u : ℚ), p.priceUSD = some u →
      (cascadeProduct v p).priceLRD = some (u * v) ∧
      (∀ q, p.pieces = some q → q ≠ 0 →
        (cascadeProduct v p).totalLRD = some (u * v * q)) ∧
      (∀ q, p.pieces = some q → q = 0 → (cascadeProduct v p).totalLRD = p.totalLRD) ∧
      (p.pieces = none → (cascadeProduct v p).totalLRD = p.totalLRD)) ∧
    (∀ (p : Product), p.priceUSD = none → cascadeProduct v p = p) := by
  have hcond : ¬ (v = 0 ∨ v ≤ 0) := by
    rintro (h | h)
    · exact absurd (h ▸ hv) (lt_irrefl 0)
    · exact absurd hv (not_lt.mpr h)
  refine ⟨?_, ?_, ?_, ?_⟩
  · simp [updateRate, hm, if_neg hcond]
  · simp [updateRate, hm, if_neg hcond, cascadeState, persistRate]
  · intro p u hu
    refine ⟨?_, ?_, ?_, ?_⟩
    · simp [cascadeProduct, hu]
    · intro q hq hq0
      simp only [cascadeProduct, hu, hq]
      rw [if_neg hq0]
      simp [jsMul]
    · intro q hq hq0
      simp only [cascadeProduct, hu, hq]
      rw [if_pos hq0]
    · intro hq
      simp [cascadeProduct, hu, hq]
  · intro p hu
    simp [cascadeProduct, hu]

/-- C4 witness: updating the rate to 2 over the zero-quantity product
succeeds; the cascade gives it `priceLRD = 1 * 2` and (per the amendment)
keeps its old `totalLRD` because the known quantity is zero. -/
theorem C4_rate_cascade_witness :
    (updateRate (some 2) none 0 zeroPiecesState).2 =
      Except.ok { lrdToUsd := 2, updatedAt := 0 } ∧
    ((updateRate (some 2) none 0 zeroPiecesState).1).products =
      [(1, cascadeProduct 2 zeroPiecesProduct)] ∧
    (cascadeProduct 2 zeroPiecesProduct).priceLRD = some (1 * 2) ∧
    (cascadeProduct 2 zeroPiecesProduct).totalLRD = zeroPiecesProduct.totalLRD := by
  have h := C4_rate_cascade (some 2) none 0 zeroPiecesState 2
    (by norm_num [mergeRate, jsTruthy]) (by norm_num)
  obtain ⟨hfst, hsnd, hall, -⟩ := h
  obtain ⟨hlrd, -, hzero, -⟩ := hall zeroPiecesProduct 1 rfl
  exact ⟨hfst, by simpa [zeroPiecesState] using hsnd, hlrd, hzero 0 rfl rfl⟩

/-- C8: `updateRate` rejects with the 400 invalid-rate error exactly when
the supplied (merged) rate is not a positive number; on rejection it
persists nothing — neither the rate document nor any product price changes —
and for every positive rate it persists the new rate and timestamp and then
runs the product cascade on that persisted state. -/
theorem C8_rate_validation (l r : Option ℚ) (now : Nat) (st : RateState) :
    ((updateRate l r now st).2 = Except.error .invalidRate ↔
      ¬ ∃ v, mergeRate l r = some v ∧ 0 < v) ∧
    Err.invalidRate.httpStatus = 400 ∧
    ((updateRate l r now st).2 = Except.error .invalidRate →
      (updateRate l r now st).1 = st) ∧
    (∀ v, mergeRate l r = some v → 0 < v →
      updateRate l r now st =
        (cascadeState v (persistRate v now st),
          Except.ok { lrdToUsd := v, updatedAt := now }) ∧
      ((updateRate l r now st).1).rate = some { lrdToUsd := v, updatedAt := now }) := by
  refine ⟨?_, rfl, ?_, ?_⟩
  · cases hm : mergeRate l r with
    | none =>
      simp only [updateRate, hm]
      constructor
      · rintro - ⟨v, hv, -⟩
        exact Option.noConfusion hv
      · intro _
        trivial
    | some v =>
      by_cases hv : v ≤ 0
      · have : (v = 0 ∨ v ≤ 0) := Or.inr hv
        simp only [updateRate, hm, if_pos this]
        constructor
        · rintro - ⟨v', hv', hpos⟩
          injection hv' with h
          exact absurd (h ▸ hpos) (not_lt.mpr hv)
        · intro _
          trivial
      · have hcond : ¬ (v = 0 ∨ v ≤ 0) := by
          rintro (h | h)
          · exact hv (le_of_eq h)
          · exact hv h
        simp only [updateRate, hm, if_neg hcond]
        constructor
        · intro he
          exact Except.noConfusion he
        · intro hex
          exact absurd ⟨v, rfl, not_le.mp hv⟩ hex
  · cases hm : mergeRate l r with
    | none => intro _; simp [updateRate, hm]
    | some v =>
      by_cases hv : v ≤ 0
      · intro _
        simp [updateRate, hm, if_pos (Or.inr hv)]
      · have hcond : ¬ (v = 0 ∨ v ≤ 0) := by
          rintro (h | h)
          · exact hv (le_of_eq h)
          · exact hv h
        intro he
        simp only [updateRate, hm, if_neg hcond] at he
        exact Except.noConfusion he
  · intro v hm hv
    have hcond : ¬ (v = 0 ∨ v ≤ 0) := by
      rintro (h | h)
      · exact absurd (h ▸ hv) (lt_irrefl 0)
      · exact absurd hv (not_lt.mpr h)
    constructor
    · simp [updateRate, hm, if_neg hcond]
    · simp [updateRate, hm, if_neg hcond, cascadeState, persistRate]

/-- C8 witness: an absent rate is rejected and leaves the state untouched;
the rate 2 is accepted, is persisted with its timestamp, and the cascade
runs on the persisted state. -/
theorem C8_rate_validation_witness :
    (updateRate none none 3 zeroPiecesState).1 = zeroPiecesState ∧
    updateRate (some 2) none 3 zeroPiecesState =
      (cascadeState 2 (persistRate 2 3 zeroPiecesState),
        Except.ok { lrdToUsd := 2, updatedAt := 3 }) ∧
    ((updateRate (some 2) none 3 zeroPiecesState).1).rate =
      some { lrdToUsd := 2, updatedAt := 3 } := by
  refine ⟨?_, ?_, ?_⟩
  · exact (C8_rate_validation none none 3 zeroPiecesState).2.2.1 rfl
  · exact ((C8_rate_validation (some 2) none 3 zeroPiecesState).2.2.2 2
      (by norm_num [mergeRate, jsTruthy]) (by norm_num)).1
  · exact ((C8_rate_validation (some 2) none 3 zeroPiecesState).2.2.2 2
      (by norm_num [mergeRate, jsTruthy]) (by norm_num)).2

theorem findOneProduct_some {inv : Inv} {pid : Nat} {store : String} {p : Product}
    (h : findOneProduct inv pid store = some p) :
    lookupById inv pid = some p ∧ p.store = store := by
  unfold findOneProduct at h
  cases hl : lookupById inv pid with
  | none =>
    rw [hl] at h
    exact Option.noConfusion h
  | some b =>
    rw [hl] at h
    simp only [] at h
    by_cases hs : b.store = store
    · rw [if_pos hs] at h
      injection h with h'
      subst h'
      exact ⟨rfl, hs⟩
    · rw [if_neg hs] at h
      exact Option.noConfusion h

/-- C9: unlike `createReturnTransaction`, the sale/credit loop has no
positivity check on line-item quantity. First conjunct: for a product whose
quantity-on-hand is present and nonnegative, the stock check
`pieces < quantity` passes for every quantity ≤ 0. Second: such a line item
makes the single-item loop succeed and leaves the product with
`pieces - quantity ≥ pieces` — inventory unchanged (quantity 0) or
increased (quantity < 0). Concretely, selling quantity `-5` of the
100-piece sample widget succeeds and raises its stock to 105, while the
return flow rejects the same quantity with a 400 validation error. -/
theorem C9_nonpositive_quantity :
    (∀ (pc : Option ℚ) (q : ℚ), q ≤ 0 → (∀ w, pc = some w → 0 ≤ w) →
      piecesLt pc q = false) ∧
    (∀ (inv : Inv) (store : String) (pid : Nat) (p : Product) (v q : ℚ),
      findOneProduct inv pid store = some p → p.pieces = some v → 0 ≤ v → q ≤ 0 →
      processItems store [⟨pid, q⟩] inv [] =
        (updateById inv pid (decPieces q),
          Except.ok [{ product := pid, productName := p.item, quantity := q,
                       priceAtSaleUSD := p.priceUSD, priceAtSaleLRD := p.priceLRD }]) ∧
      ∃ p', lookupById (updateById inv pid (decPieces q)) pid = some p' ∧
        p'.pieces = some (v - q) ∧ v ≤ v - q) ∧
    (createTransaction negQtySaleReq sampleInv).2.isOk = true ∧
    (lookupById (createTransaction negQtySaleReq sampleInv).1 1).map (·.pieces) =
      some (some 105) ∧
    (100 : ℚ) < 105 ∧
    createReturnTransaction negQtyReturnReq sampleInv =
      (sampleInv, Except.error (.invalidQuantity "widget")) ∧
    (Err.invalidQuantity "widget").httpStatus = 400 := by
  refine ⟨?_, ?_, ?_, ?_, by norm_num, ?_, rfl⟩
  · intro pc q hq hnn
    cases pc with
    | none => rfl
    | some w =>
      have hw := hnn w rfl
      simp [piecesLt]
      linarith
  · intro inv store pid p v q hfind hv hv0 hq
    obtain ⟨hlk, hst⟩ := findOneProduct_some hfind
    have hlt : piecesLt p.pieces q = false := by
      rw [hv]
      simp [piecesLt]
      linarith
    constructor
    · simp only [processItems, hfind, hlt, Bool.false_eq_true, if_false, List.nil_append]
    · refine ⟨decPieces q p, ?_, ?_, by linarith⟩
      · rw [lookupById_updateById, if_pos rfl, hlk]
        rfl
      · simp [decPieces, jsOrZero, hv]
  · norm_num [createTransaction, negQtySaleReq, sampleInv, sampleProduct, processItems,
      findOneProduct, lookupById, piecesLt, decPieces, jsOrZero, updateById,
      validatePayment, jsLtU, Except.isOk, Except.toBool,
      (show ¬("main" = "") from by decide)]
  · norm_num [createTransaction, negQtySaleReq, sampleInv, sampleProduct, processItems,
      findOneProduct, lookupById, piecesLt, decPieces, jsOrZero, updateById,
      validatePayment, jsLtU, (show ¬("main" = "") from by decide)]
  · norm_num [createReturnTransaction, negQtyReturnReq, sampleInv, sampleProduct,
      processReturnItems, findOneProduct, lookupById,
      (show ¬("main" = "") from by decide)]

/-- C9 witness: the general conjuncts applied to the sample widget — the
stock check passes for quantity `-5` against 100 nonnegative pieces, and
the single-item loop leaves 105 pieces. -/
theorem C9_nonpositive_quantity_witness :
    piecesLt (some 100) (-5) = false ∧
    ∃ p', lookupById (updateById sampleInv 1 (decPieces (-5))) 1 = some p' ∧
      p'.pieces = some (100 - (-5)) ∧ (100 : ℚ) ≤ 100 - (-5) := by
  constructor
  · exact C9_nonpositive_quantity.1 (some 100) (-5) (by norm_num)
      (fun w hw => by injection hw with h; rw [← h]; norm_num)
  · exact (C9_nonpositive_quantity.2.1 sampleInv "main" 1 sampleProduct 100 (-5)
      (by norm_num [findOneProduct, sampleInv, sampleProduct, lookupById])
      rfl (by norm_num) (by norm_num)).2

theorem processReturnItems_pieces_add {store : String} {items : List LineItem} {inv : Inv}
    {acc : List EnhancedItem} {tL tU : Option ℚ} {inv' : Inv}
    {res : List EnhancedItem × Option ℚ × Option ℚ} {pid : Nat} {p : Product} {v : ℚ}
    (h : processReturnItems store items inv acc tL tU = (inv', Except.ok res))
    (hp : lookupById inv pid = some p) (hv : p.pieces = some v) :
    ∃ p', lookupById inv' pid = some p' ∧ p'.pieces = some (v + sumQty items pid) := by
  obtain ⟨p', hp', _, _, _, _, hpieces⟩ :=
    processReturnItems_ok_pieces store items inv acc tL tU inv' res pid p h hp
  refine ⟨p', hp', ?_⟩
  rw [hpieces]
  by_cases hany : items.any (fun it => it.product = pid)
  · simp [hany, jsOrZero, hv]
  · have hz : sumQty items pid = 0 := by
      apply sumQty_eq_zero
      intro x hx hxx
      rw [List.any_eq_true] at hany
      exact hany ⟨x, hx, by simp [hxx]⟩
    simp [hany, hv, hz]

theorem retFoldL_eq_sum (inv : Inv) (store : String) (items : List LineItem)
    (priceL : Nat → ℚ)
    (h : ∀ it ∈ items, curPriceLRD inv store it.product = some (priceL it.product)) :
    ∀ c, retFoldL inv store items (some c) =
      some (c + (items.map (fun it => priceL it.product * it.quantity)).sum) := by
  induction items with
  | nil => intro c; simp [retFoldL]
  | cons it rest ih =>
    intro c
    simp only [retFoldL, List.foldl_cons]
    rw [h it (by simp)]
    have step : jsAdd (some c) (jsMul (some (priceL it.product)) it.quantity) =
        some (c + priceL it.product * it.quantity) := by
      simp [jsAdd, jsMul]
    rw [step]
    have ihc := ih (fun x hx => h x (by simp [hx])) (c + priceL it.product * it.quantity)
    simp only [retFoldL] at ihc
    rw [ihc]
    congr 1
    simp
    ring

theorem retFoldU_eq_sum (inv : Inv) (store : String) (items : List LineItem)
    (priceU : Nat → ℚ)
    (h : ∀ it ∈ items, curPriceUSD inv store it.product = some (priceU it.product)) :
    ∀ c, retFoldU inv store items (some c) =
      some (c + (items.map (fun it => priceU it.product * it.quantity)).sum) := by
  induction items with
  | nil => intro c; simp [retFoldU]
  | cons it rest ih =>
    intro c
    simp only [retFoldU, List.foldl_cons]
    rw [h it (by simp)]
    have step : jsAdd (some c) (jsMul (some (priceU it.product)) it.quantity) =
        some (c + priceU it.product * it.quantity) := by
      simp [jsAdd, jsMul]
    rw [step]
    have ihc := ih (fun x hx => h x (by simp [hx])) (c + priceU it.product * it.quantity)
    simp only [retFoldU] at ihc
    rw [ihc]
    congr 1
    simp
    ring

/-- C5: `createReturnTransaction` fails with the 404 not-found error when a
line item's product is absent for the store and with a 400 validation error
when a line item's quantity is ≤ 0 (both relative to the sequentially
reached loop state); otherwise — every product present and every quantity
positive — it succeeds, increments each product's quantity-on-hand by
exactly the total returned quantity, and persists a `return` Transaction
whose `totalLRD`/`totalUSD` are the sums over the line items of the current
catalog price times quantity (price at return time, not the original sale
price, which the computation never reads), with the reason defaulted to
"No reason provided" when none is supplied. -/
theorem C5_createReturn (req : ReturnReq) (inv : Inv)
    (hstore : ¬ req.store = "") (hne : ¬ req.productsReturned = []) :
    (∀ pre item rest inv1 acc1 tL1 tU1,
      req.productsReturned = pre ++ item :: rest →
      processReturnItems req.store pre inv [] (some 0) (some 0) =
        (inv1, Except.ok (acc1, tL1, tU1)) →
      (findOneProduct inv1 item.product req.store = none →
        createReturnTransaction req inv =
          (inv1, Except.error (.productNotFound item.product)) ∧
        (Err.productNotFound item.product).httpStatus = 404) ∧
      (∀ p, findOneProduct inv1 item.product req.store = some p → item.quantity ≤ 0 →
        createReturnTransaction req inv =
          (inv1, Except.error (.invalidQuantity p.item)) ∧
        (Err.invalidQuantity p.item).httpStatus = 400)) ∧
    ((∀ it ∈ req.productsReturned,
        (findOneProduct inv it.product req.store).isSome ∧ 0 < it.quantity) →
      ∃ inv' tx, createReturnTransaction req inv = (inv', Except.ok tx) ∧
        tx.type = .ret ∧
        (∀ pid p v, lookupById inv pid = some p → p.pieces = some v →
          ∃ p', lookupById inv' pid = some p' ∧
            p'.pieces = some (v + sumQty req.productsReturned pid)) ∧
        (∀ (priceL priceU : Nat → ℚ),
          (∀ it ∈ req.productsReturned,
            curPriceLRD inv req.store it.product = some (priceL it.product) ∧
            curPriceUSD inv req.store it.product = some (priceU it.product)) →
          tx.totalLRD = some ((req.productsReturned.map
            (fun it => priceL it.product * it.quantity)).sum) ∧
          tx.totalUSD = some ((req.productsReturned.map
            (fun it => priceU it.product * it.quantity)).sum)) ∧
        tx.returnReason = some (jsOrStr req.returnReason "No reason provided") ∧
        (req.returnReason = none → tx.returnReason = some "No reason provided")) := by
  constructor
  · intro pre item rest inv1 acc1 tL1 tU1 hsplit hpre
    constructor
    · intro habs
      refine ⟨?_, rfl⟩
      simp only [createReturnTransaction, if_neg hstore, hsplit,
        if_neg (show ¬ (pre ++ item :: rest = []) from by simp),
        processReturnItems_append req.store pre (item :: rest) inv [] (some 0) (some 0),
        hpre, processReturnItems, habs]
    · intro p hp hq
      refine ⟨?_, rfl⟩
      simp only [createReturnTransaction, if_neg hstore, hsplit,
        if_neg (show ¬ (pre ++ item :: rest = []) from by simp),
        processReturnItems_append req.store pre (item :: rest) inv [] (some 0) (some 0),
        hpre, processReturnItems, hp, if_pos hq]
  · intro hcond
    obtain ⟨inv', acc', tL', tU', hres⟩ :=
      processReturnItems_ok_of req.store req.productsReturned inv [] (some 0) (some 0) hcond
    obtain ⟨htL, htU⟩ := processReturnItems_totals req.store req.productsReturned
      inv [] (some 0) (some 0) inv' acc' tL' tU' hres
    refine ⟨inv',
      { type := .ret, store := req.store, currency := req.currency,
        productsSold := acc', amountReceivedLRD := 0, amountReceivedUSD := 0,
        change := 0, changeCurrency := some req.currency, totalLRD := tL',
        totalUSD := tU', returnReason := some (jsOrStr req.returnReason "No reason provided"),
        originalTransaction := req.originalTransactionId }, ?_, rfl, ?_, ?_, rfl, ?_⟩
    · simp only [createReturnTransaction, if_neg hstore, if_neg hne, hres]
    · intro pid p v hp hv
      exact processReturnItems_pieces_add hres hp hv
    · intro priceL priceU hprice
      constructor
      · show tL' = _
        rw [htL, retFoldL_eq_sum inv req.store req.productsReturned priceL
          (fun it hit => (hprice it hit).1) 0]
        simp
      · show tU' = _
        rw [htU, retFoldU_eq_sum inv req.store req.productsReturned priceU
          (fun it hit => (hprice it hit).2) 0]
        simp
    · intro h0
      simp [jsOrStr, h0]

/-- C5 witness: returning two widgets to the 100-piece sample store succeeds
with 102 pieces afterwards, totals `2 * 394` LRD and `2 * 2` USD from the
current catalog prices, and the default reason; returning a product that
does not exist fails with the 404 not-found error. -/
theorem C5_createReturn_witness :
    (∃ inv' tx, createReturnTransaction sampleReturnReq sampleInv = (inv', Except.ok tx) ∧
      (∃ p', lookupById inv' 1 = some p' ∧
        p'.pieces = some (100 + sumQty [⟨1, 2⟩] 1)) ∧
      tx.totalLRD = some (([⟨1, 2⟩] : List LineItem).map
        (fun it => (394 : ℚ) * it.quantity)).sum ∧
      tx.returnReason = some "No reason provided") ∧
    createReturnTransaction missingReturnReq sampleInv =
      (sampleInv, Except.error (.productNotFound 2)) := by
  constructor
  · obtain ⟨inv', tx, hres, htype, hpieces, htotals, hreason, hdef⟩ :=
      (C5_createReturn sampleReturnReq sampleInv (by decide) (by decide)).2
        (by
          intro it hit
          simp only [sampleReturnReq, List.mem_singleton] at hit
          subst hit
          exact ⟨by norm_num [findOneProduct, sampleReturnReq, sampleInv, sampleProduct,
            lookupById], by norm_num⟩)
    obtain ⟨h1, h2⟩ := htotals (fun _ => 394) (fun _ => 2)
      (by
        intro it hit
        simp only [sampleReturnReq, List.mem_singleton] at hit
        subst hit
        constructor <;>
          norm_num [curPriceLRD, curPriceUSD, findOneProduct, sampleReturnReq, sampleInv,
            sampleProduct, lookupById])
    refine ⟨inv', tx, hres, ?_, h1, hdef rfl⟩
    exact hpieces 1 sampleProduct 100 (by simp [sampleInv, lookupById])
      (by simp [sampleProduct])
  · have h := ((C5_createReturn missingReturnReq sampleInv (by decide) (by decide)).1
      [] ⟨2, 1⟩ [] sampleInv [] (some 0) (some 0) rfl (by simp [processReturnItems])).1
      (by norm_num [findOneProduct, sampleInv, sampleProduct, lookupById])
    exact h.1

/-- C6: every monetary and quantity rollup field `getSalesReport` emits is
nonnegative — for arbitrary sale and return inputs, hence regardless of how
returned value compares to sold value in any bucket and of the ordering of
sales and returns in the range — because after folding sales and
subtracting returns the daily, per-store and overall `totalLRD`, `totalUSD`
and item-count fields and the per-product `totalLRD`/`totalUSD` fields are
clamped to a minimum of zero. -/
theorem C6_report_nonneg (sales returns : List RTx) :
    (∀ e ∈ (getSalesReport sales returns).dailyTotals,
      0 ≤ e.2.totalLRD ∧ 0 ≤ e.2.totalUSD ∧ 0 ≤ e.2.items) ∧
    (∀ e ∈ (getSalesReport sales returns).storeTotals,
      0 ≤ e.2.totalLRD ∧ 0 ≤ e.2.totalUSD ∧ 0 ≤ e.2.items) ∧
    (∀ e ∈ (getSalesReport sales returns).productTotals,
      0 ≤ e.2.totalLRD ∧ 0 ≤ e.2.totalUSD) ∧
    0 ≤ (getSalesReport sales returns).overall.totalLRD ∧
    0 ≤ (getSalesReport sales returns).overall.totalUSD ∧
    0 ≤ (getSalesReport sales returns).overall.totalItems := by
  refine ⟨?_, ?_, ?_, le_max_left 0 _, le_max_left 0 _, le_max_left 0 _⟩
  · intro e he
    simp only [getSalesReport, List.mem_map] at he
    obtain ⟨a, -, rfl⟩ := he
    exact ⟨le_max_left 0 _, le_max_left 0 _, le_max_left 0 _⟩
  · intro e he
    simp only [getSalesReport, List.mem_map] at he
    obtain ⟨a, -, rfl⟩ := he
    exact ⟨le_max_left 0 _, le_max_left 0 _, le_max_left 0 _⟩
  · intro e he
    simp only [getSalesReport, List.mem_map] at he
    obtain ⟨a, -, rfl⟩ := he
    exact ⟨le_max_left 0 _, le_max_left 0 _⟩

/-- C6 witness: a report over no sales and one 50-LRD return folds the daily
bucket to `-50` and emits it clamped to `0`, which is nonnegative as the
theorem states. -/
theorem C6_report_nonneg_witness :
    (getSalesReport [] [retTx]).dailyTotals = [("2024-01-01", clampDay retDayBucket)] ∧
    0 ≤ (clampDay retDayBucket).totalLRD ∧
    (clampDay retDayBucket).totalLRD = 0 ∧ retDayBucket.totalLRD = -50 := by
  have hdt : (getSalesReport [] [retTx]).dailyTotals =
      [("2024-01-01", clampDay retDayBucket)] := by
    norm_num [getSalesReport, foldRetDay, upsert, dayInit, clampDay, jsTruthy, jsOrZero,
      retTx, retDayBucket, itemsQty]
  refine ⟨hdt, ?_, by norm_num [clampDay, retDayBucket], by norm_num [retDayBucket]⟩
  exact ((C6_report_nonneg [] [retTx]).1 ("2024-01-01", clampDay retDayBucket)
    (by rw [hdt]; simp)).1

theorem createCredit_ok {req : CreditReq} {newId : Nat} {inv : Inv} {credits : Credits}
    {inv' : Inv} {credits' : Credits} {c : Credit}
    (h : createCredit req newId inv credits = (inv', credits', Except.ok c)) :
    credits' = credits ++ [(newId, c)] ∧ c.store = req.store ∧ c.status = .pending ∧
    c.totalLRD = jsOrZero req.totalLRD ∧ c.totalUSD = jsOrZero req.totalUSD ∧
    ¬ req.store = "" := by
  by_cases hstore : req.store = ""
  · simp [createCredit, hstore] at h
  · by_cases hname : jsTrim req.customerName = ""
    · simp [createCredit, hstore, hname] at h
    · simp only [createCredit, if_neg hstore, if_neg hname] at h
      rcases hpi : processItems req.store req.productsSold inv [] with ⟨inv2, r⟩
      rw [hpi] at h
      cases r with
      | error e => simp at h
      | ok enhanced =>
        simp only at h
        injection h with h1 h23
        injection h23 with h2 h3
        injection h3 with hc
        subst hc
        exact ⟨h2.symm, rfl, rfl, rfl, rfl, hstore⟩

/-- C10: `createCredit` persists the caller-supplied `totalLRD`/`totalUSD`
verbatim, defaulting each to 0 when absent, and never recomputes them from
the line items' prices and quantities (the stored totals are a function of
the request fields alone); `payCredit` checks the payment only against
these stored totals, so a credit created without a `totalLRD` can be
settled in currency `LRD` by any typed nonnegative amount — zero included —
regardless of the value of the goods on the credit. -/
theorem C10_credit_totals :
    (∀ (req : CreditReq) (newId : Nat) (inv : Inv) (credits : Credits)
        (inv' : Inv) (credits' : Credits) (c : Credit),
      createCredit req newId inv credits = (inv', credits', Except.ok c) →
      c.totalLRD = jsOrZero req.totalLRD ∧ c.totalUSD = jsOrZero req.totalUSD ∧
      (req.totalLRD = none → c.totalLRD = 0)) ∧
    (∀ (req : CreditReq) (newId : Nat) (inv : Inv) (credits : Credits)
        (inv' : Inv) (credits' : Credits) (c : Credit),
      createCredit req newId inv credits = (inv', credits', Except.ok c) →
      req.totalLRD = none →
      lookupById credits newId = none →
      ∀ (payReq : PayReq) (now txId : Nat) (a : ℚ),
        payReq.currency = .LRD → payReq.store = req.store →
        payReq.amountReceivedLRD = some a → 0 ≤ a →
        (payCredit newId payReq now txId credits').2.isOk = true) := by
  constructor
  · intro req newId inv credits inv' credits' c h
    obtain ⟨-, -, -, hcl, hcu, -⟩ := createCredit_ok h
    refine ⟨hcl, hcu, ?_⟩
    intro h0
    rw [hcl, h0]
    rfl
  · intro req newId inv credits inv' credits' c h hnone hfree
    intro payReq now txId a hcur hst ha ha0
    obtain ⟨hcr, hcst, hcstat, hcl, -, hstore⟩ := createCredit_ok h
    have hlook : lookupById credits' newId = some c := by
      rw [hcr]
      exact lookupById_append_fresh credits newId c hfree
    have hstore2 : ¬ payReq.store = "" := by
      rw [hst]
      exact hstore
    have hc0 : c.totalLRD = 0 := by
      rw [hcl, hnone]
      rfl
    have hval : validatePayment payReq.currency payReq.amountReceivedLRD
        payReq.amountReceivedUSD (some c.totalLRD) (some c.totalUSD)
        payReq.currencyRate = none := by
      rw [hcur, ha, hc0]
      simp [validatePayment, jsLtU, not_lt.mpr ha0]
    have hcond : c.store = payReq.store := by
      rw [hst, hcst]
    simp [payCredit, if_neg hstore2, hlook, hcond, hcstat, hval, Except.isOk, Except.toBool]

/-- C10 witness: the sample credit request carries no totals, so the stored
credit has `totalLRD = 0`; paying it with 0 LRD in cash succeeds. -/
theorem C10_credit_totals_witness :
    ∃ (inv' : Inv) (credits' : Credits) (c : Credit),
      createCredit sampleCreditReq 7 sampleInv [] = (inv', credits', Except.ok c) ∧
      c.totalLRD = 0 ∧
      (payCredit 7 zeroPayReq 1 2 credits').2.isOk = true := by
  have hres : createCredit sampleCreditReq 7 sampleInv [] =
      ([(1, { store := "main", item := "widget", pieces := some 98,
              priceUSD := some 2, priceLRD := some 394, totalLRD := some 39400 })],
        [(7, { productsSold := [{ product := 1, productName := "widget", quantity := 2,
                                  priceAtSaleUSD := some 2, priceAtSaleLRD := some 394 }],
               store := "main", customerName := "Al", totalLRD := 0, totalUSD := 0,
               status := .pending, preferredCurrency := .LRD, paidAt := none,
               paymentTransaction := none })],
        Except.ok
          { productsSold := [{ product := 1, productName := "widget", quantity := 2,
                               priceAtSaleUSD := some 2, priceAtSaleLRD := some 394 }],
            store := "main", customerName := "Al", totalLRD := 0, totalUSD := 0,
            status := .pending, preferredCurrency := .LRD, paidAt := none,
            paymentTransaction := none }) := by
    norm_num [createCredit, sampleCreditReq, sampleInv, sampleProduct, processItems,
      findOneProduct, lookupById, piecesLt, decPieces, jsOrZero, updateById,
      (show ¬("main" = "") from by decide), (show ¬(jsTrim "Al" = "") from by decide)]
  refine ⟨_, _, _, hres, ?_, ?_⟩
  · exact ((C10_credit_totals.1 sampleCreditReq 7 sampleInv [] _ _ _ hres).2.2 rfl)
  · exact C10_credit_totals.2 sampleCreditReq 7 sampleInv [] _ _ _ hres rfl rfl
      zeroPayReq 1 2 0 rfl rfl rfl le_rfl

/-- C1 witness: the amended equivalence instantiated at the claim's own LRD
examples — 999 against a total of 1000 fails, 1000 against 1000 passes. -/
theorem C1_payment_sufficiency_witness :
    validatePayment .LRD (some 999) none (some 1000) none none ≠ none ∧
    ¬ validatePayment .LRD (some 1000) none (some 1000) none none ≠ none := by
  constructor
  · exact (C1_payment_sufficiency.1 (some 999) none 1000 none none).mpr
      (Or.inr ⟨999, rfl, by norm_num⟩)
  · intro hne
    rcases (C1_payment_sufficiency.1 (some 1000) none 1000 none none).mp hne with
      h | ⟨a, ha, hlt⟩
    · exact Option.noConfusion h
    · injection ha with h'
      rw [← h'] at hlt
      norm_num at hlt

end Firestone
